import Mathlib

/-!
# Verification of the voxpop campaign dispatch / reconciliation core

Shallow embedding of the campaign dispatch loop and delivery-status
reconciliation engine of the voxpop backend:

* `backend/apps/campaigns/models.py`        — `Campaign`, `CampaignItem`
* `backend/apps/campaigns/services/campaign_service.py` — `start_campaign`,
  `_populate_recipients`, `_clean_phone`
* `backend/apps/campaigns/tasks.py`         — `process_campaign_batch`
* `backend/apps/whatsapp/tasks/webhook_tasks.py` — `process_webhook`,
  `_handle_messages_update`, `_handle_send_message`, `_handle_connection_update`,
  `_handle_qrcode_updated`
* `backend/apps/whatsapp/models/webhook_log.py` — `WebhookLog.mark_as_processed`
* `backend/apps/whatsapp/api/views/webhook_views.py` — `WebhookView.post`,
  `get_session_by_instance_name`, `_process_event_sync`
* `backend/apps/whatsapp/services/whatsapp_service.py` — `_format_phone`,
  `send_text_sync`, `send_media_sync`
* `backend/apps/campaigns/api/views.py`     — `start` / `pause` actions

The embedding follows the Python source line by line.  Database rows become
Lean lists, Django ORM field updates become record updates, `timezone.now()`
becomes a logical `clock : Nat` carried in the state (the model does not
advance wall-clock time; timestamps only record that a stamp was written).
Operations of the Celery worker pool are interleaved sequentially: one
transition of the system is one complete synchronous unit of the source
(one task activation, one HTTP request handler, one service call).  A pause
that lands in the middle of a running batch is injected at its exact landing
point (`pauseAt`), mirroring the `campaign.refresh_from_db()` re-check that
the batch loop performs before every send.
-/

/-! ## Small list helpers (replacements for the handful of ORM list idioms) -/

/-- Update the element at position `i` (no-op when out of range). -/
def updateAt {α : Type} (f : α → α) : Nat → List α → List α
  | _, [] => []
  | 0, x :: xs => f x :: xs
  | n + 1, x :: xs => x :: updateAt f n xs

/-- Update the first element satisfying `p` (used for `.get()` + `.save()`). -/
def updateFirst {α : Type} (p : α → Bool) (f : α → α) : List α → List α
  | [] => []
  | x :: xs => if p x then f x :: xs else x :: updateFirst p f xs

/-- Index of the first element satisfying `p` (embeds `.filter(...).first()`). -/
def firstIdx {α : Type} (p : α → Bool) : List α → Option Nat
  | [] => none
  | x :: xs => if p x then some 0 else (firstIdx p xs).map (· + 1)

/-- Count of elements satisfying `p` (embeds `.filter(...).count()`). -/
def countP {α : Type} (p : α → Bool) : List α → Nat
  | [] => 0
  | x :: xs => (if p x then 1 else 0) + countP p xs

theorem updateAt_length {α : Type} (f : α → α) :
    ∀ (i : Nat) (xs : List α), (updateAt f i xs).length = xs.length := by
  intro i xs
  induction xs generalizing i with
  | nil => cases i <;> rfl
  | cons x xs ih => cases i with
    | zero => rfl
    | succ n => simpa [updateAt] using ih n

theorem updateAt_get? {α : Type} (f : α → α) :
    ∀ (i j : Nat) (xs : List α),
      (updateAt f i xs)[j]? =
        if i = j then xs[j]?.map f else xs[j]? := by
  intro i j xs
  induction xs generalizing i j with
  | nil => cases i <;> cases j <;> simp [updateAt]
  | cons x xs ih =>
    cases i with
    | zero => cases j <;> simp [updateAt]
    | succ n =>
      cases j with
      | zero => simp [updateAt]
      | succ m => simpa [updateAt, Nat.succ_inj] using ih n m

theorem countP_updateAt {α : Type} (p : α → Bool) (f : α → α) :
    ∀ (i : Nat) (xs : List α) (x : α), xs[i]? = some x →
      countP p (updateAt f i xs) + (if p x then 1 else 0) =
        countP p xs + (if p (f x) then 1 else 0) := by
  intro i xs
  induction xs generalizing i with
  | nil => intro x h; cases i <;> simp at h
  | cons y ys ih =>
    intro x h
    cases i with
    | zero =>
      simp at h
      subst h
      simp [updateAt, countP]
      omega
    | succ n =>
      simp at h
      have := ih n x h
      simp [updateAt, countP]
      omega

theorem countP_le_length {α : Type} (p : α → Bool) :
    ∀ xs : List α, countP p xs ≤ xs.length := by
  intro xs
  induction xs with
  | nil => simp [countP]
  | cons x xs ih =>
    by_cases h : p x <;> simp [countP, h] <;> omega

theorem countP_append {α : Type} (p : α → Bool) (xs ys : List α) :
    countP p (xs ++ ys) = countP p xs + countP p ys := by
  induction xs with
  | nil => simp [countP]
  | cons x xs ih => simp [countP, ih]; omega

theorem countP_eq_zero {α : Type} (p : α → Bool) :
    ∀ xs : List α, countP p xs = 0 ↔ ∀ x ∈ xs, p x = false := by
  intro xs
  induction xs with
  | nil => simp [countP]
  | cons x xs ih =>
    by_cases h : p x <;> simp [countP, h, ih]

theorem firstIdx_some {α : Type} (p : α → Bool) :
    ∀ {xs : List α} {i : Nat}, firstIdx p xs = some i →
      ∃ x, xs[i]? = some x ∧ p x = true := by
  intro xs
  induction xs with
  | nil => intro i h; simp [firstIdx] at h
  | cons x xs ih =>
    intro i h
    by_cases hx : p x
    · simp [firstIdx, hx] at h
      exact ⟨x, by simp [← h], hx⟩
    · simp [firstIdx, hx] at h
      obtain ⟨j, hj, hij⟩ := h
      obtain ⟨y, hy, hpy⟩ := ih hj
      exact ⟨y, by simpa [← hij] using hy, hpy⟩

theorem mem_of_get? {α : Type} :
    ∀ {xs : List α} {i : Nat} {x : α}, xs[i]? = some x → x ∈ xs := by
  intro xs
  induction xs with
  | nil => intro i x h; cases i <;> simp at h
  | cons y ys ih =>
    intro i x h
    cases i with
    | zero => simp at h; simp [h]
    | succ n =>
      simp at h
      simp [ih h]

theorem mem_updateFirst {α : Type} (p : α → Bool) (f : α → α) :
    ∀ {xs : List α} {x : α}, x ∈ updateFirst p f xs →
      x ∈ xs ∨ ∃ y ∈ xs, x = f y := by
  intro xs
  induction xs with
  | nil => intro x h; simp [updateFirst] at h
  | cons y ys ih =>
    intro x h
    by_cases hy : p y
    · simp [updateFirst, hy] at h
      rcases h with h | h
      · exact Or.inr ⟨y, by simp, h⟩
      · exact Or.inl (by simp [h])
    · simp [updateFirst, hy] at h
      rcases h with h | h
      · exact Or.inl (by simp [h])
      · rcases ih h with h1 | ⟨z, hz, hxz⟩
        · exact Or.inl (by simp [h1])
        · exact Or.inr ⟨z, by simp [hz], hxz⟩

theorem updateFirst_length {α : Type} (p : α → Bool) (f : α → α) :
    ∀ xs : List α, (updateFirst p f xs).length = xs.length := by
  intro xs
  induction xs with
  | nil => rfl
  | cons x xs ih => by_cases h : p x <;> simp [updateFirst, h, ih]

/-! ## Data model

`Campaign.Status` and `CampaignItem.Status` from `apps/campaigns/models.py`,
`WhatsAppSession.Status` from `apps/whatsapp/models/session.py`,
`WebhookLog` from `apps/whatsapp/models/webhook_log.py`,
`Message` (generic non-campaign record) from `apps/messaging/models/message.py`. -/

/-- `Campaign.Status` text choices (models.py lines 13-20). -/
inductive CampaignStatus : Type
  | draft | scheduled | running | paused | completed | cancelled | failedSt
deriving DecidableEq, Repr

/-- `CampaignItem.Status` text choices (models.py lines 119-125). -/
inductive ItemStatus : Type
  | pending | queued | sent | delivered | read | failedSt
deriving DecidableEq, Repr

/-- `WhatsAppSession.Status` text choices (session.py lines 15-19). -/
inductive SessionStatus : Type
  | disconnected | connecting | connected | banned
deriving DecidableEq, Repr

/-- Campaign row: statuses, targeting rule and the denormalized counters
(models.py lines 9-104).  Fields that the claims never touch (name,
description, media, schedule, creator) are omitted; `message` is kept because
the batch loop reads it, `mediaUrl`/`mediaType` because they select the send
operation. -/
structure Campaign : Type where
  message : String
  mediaUrl : Option String
  mediaType : String
  targetTags : List Nat
  targetGroups : List String
  status : CampaignStatus
  totalRecipients : Nat
  messagesSent : Nat
  messagesDelivered : Nat
  messagesRead : Nat
  messagesFailed : Nat
  startedAt : Option Nat
  completedAt : Option Nat
deriving DecidableEq, Repr

/-- CampaignItem row (models.py lines 115-172).  `supporterId` stands for the
nullable FK, `messageId` for the gateway-assigned `message_id` (NULL until
extracted from a send response). -/
structure CampaignItem : Type where
  supporterId : Option Nat
  recipientName : String
  recipientPhone : String
  status : ItemStatus
  messageId : Option String
  errorMessage : String
  sentAt : Option Nat
  deliveredAt : Option Nat
  readAt : Option Nat
deriving DecidableEq, Repr

/-- The dictionary projection of a webhook payload: every key that any handler
of `webhook_tasks.py` or `webhook_views.py` reads.  `Option` marks keys whose
handlers distinguish key-absence from an empty value via `dict.get` defaults;
plain `String` fields use `""` exactly where the source's own default is
`''`. -/
structure Payload : Type where
  dataKeyId : String
  dataKeyDotId : String
  dataMessageId : String
  dataStatus : String
  dataState : Option String
  dataWidUser : String
  topKeyDotId : Option String
  topMessageId : String
  topMessage : Option String
  stateField : Option String
  connectionField : Option String
  instanceWuid : String
deriving DecidableEq, Repr

/-- A payload carrying none of the keys the handlers read. -/
def emptyPayload : Payload :=
  ⟨"", "", "", "", none, "", none, "", none, none, none, ""⟩

/-- WebhookLog row (webhook_log.py lines 9-75). -/
structure WebhookLog : Type where
  id : Nat
  eventType : String
  payload : Payload
  processed : Bool
  processedAt : Option Nat
  errorText : String
deriving DecidableEq, Repr

/-- `WebhookLog.Meta.indexes` (webhook_log.py lines 60-64), as field-name
lists. -/
def webhookLogIndexes : List (List String) :=
  [["session", "event_type"], ["processed", "created_at"],
   ["event_type", "processed"]]

/-- Generic `Message` row — only the fields the fallback branch of
`_handle_messages_update` and `_handle_send_message` touch
(message.py; `mark_as_delivered` / `mark_as_read` / `mark_as_failed`
lines 195-218). -/
structure MessageRec : Type where
  whatsappMessageId : String
  externalId : String
  status : String
  deliveredAt : Option Nat
  readAt : Option Nat
  failedAt : Option Nat
  errorCode : String
  errorMessage : String
deriving DecidableEq, Repr

/-- WhatsAppSession row — the fields the webhook handlers mutate. -/
structure SessionRec : Type where
  name : String
  instanceName : String
  isActive : Bool
  status : SessionStatus
  isHealthy : Bool
  phoneNumber : String
  lastHealthCheck : Option Nat
deriving DecidableEq, Repr

/-- One tenant's slice of the system, for the single campaign all claims are
about: the campaign row, its item rows, the webhook log, the generic message
rows and the gateway session the campaign uses.  `clock` is the logical
`timezone.now()`. -/
structure SysState : Type where
  campaign : Campaign
  items : List CampaignItem
  logs : List WebhookLog
  msgs : List MessageRec
  session : SessionRec
  clock : Nat
deriving DecidableEq, Repr

/-! ### Status predicates used by counting arguments -/

def isPending (it : CampaignItem) : Bool := it.status = ItemStatus.pending
def isQueued (it : CampaignItem) : Bool := it.status = ItemStatus.queued
def isSentOnly (it : CampaignItem) : Bool := it.status = ItemStatus.sent
def isDelivered (it : CampaignItem) : Bool := it.status = ItemStatus.delivered
def isRead (it : CampaignItem) : Bool := it.status = ItemStatus.read
def isFailed (it : CampaignItem) : Bool := it.status = ItemStatus.failedSt

/-- An item whose send has been counted in `messages_sent`: `SENT` or a
reconciliation successor (`DELIVERED`, `READ`). -/
def isSentLike (it : CampaignItem) : Bool :=
  it.status = ItemStatus.sent ∨ it.status = ItemStatus.delivered ∨
    it.status = ItemStatus.read

/-- Item statuses partition into pending / queued / sent-like / failed. -/
theorem length_eq_count_partition :
    ∀ items : List CampaignItem,
      items.length = countP isPending items + countP isQueued items +
        countP isSentLike items + countP isFailed items := by
  intro items
  induction items with
  | nil => simp [countP]
  | cons it items ih =>
    have : (if isPending it then 1 else 0) + (if isQueued it then 1 else 0) +
        (if isSentLike it then 1 else 0) + (if isFailed it then 1 else 0) = 1 := by
      cases h : it.status <;>
        simp [isPending, isQueued, isSentLike, isFailed, h]
    simp only [List.length_cons, countP, ih]
    omega

/-! ## Status Reconciliation Engine — `apps/whatsapp/tasks/webhook_tasks.py`

`process_webhook` fetches one `WebhookLog` row by id, dispatches on
`event_type`, then calls `webhook_log.mark_as_processed()`; on an exception
it calls `mark_as_processed(error=str(e))` instead (lines 13-56).  Note the
task never consults `webhook_log.processed` before dispatching. -/

/-- ASCII upper-casing, standing for Python's `str.upper()` on the ASCII
event-status strings the gateway sends. -/
def strUpper (s : String) : String := String.mk (s.toList.map Char.toUpper)

/-- ASCII lower-casing, standing for Python's `str.lower()`. -/
def strLower (s : String) : String := String.mk (s.toList.map Char.toLower)

/-- `WebhookLog.mark_as_processed` (webhook_log.py lines 69-75): sets
`processed = True`, stamps `processed_at`, stores the error text.  The call
site owns the fetched instance; we apply it to the row with the same id. -/
def mark_as_processed (logId : Nat) (err : String) (s : SysState) : SysState :=
  let stamp : WebhookLog → WebhookLog := fun l =>
    { l with processed := true, processedAt := some s.clock, errorText := err }
  { s with logs := updateFirst (fun l => l.id = logId) stamp s.logs }

/-- `_handle_qrcode_updated` (lines 59-63): `session.status = 'connecting'`. -/
def handle_qrcode_updated (s : SysState) : SysState :=
  { s with session := { s.session with status := SessionStatus.connecting } }

/-- `state = payload.get('state', payload.get('connection', '')).lower()`
(line 70). -/
def connStateOf (p : Payload) : String :=
  strLower (p.stateField.getD (p.connectionField.getD ""))

/-- `_handle_connection_update` (lines 66-90). -/
def handle_connection_update (p : Payload) (s : SysState) : SysState :=
  if connStateOf p = "open" ∨ connStateOf p = "connected" then
    let phone := (p.instanceWuid.splitOn "@").headD ""
    { s with session := { s.session with
        status := SessionStatus.connected, isHealthy := true,
        lastHealthCheck := some s.clock,
        phoneNumber := if p.instanceWuid ≠ "" then phone
                       else s.session.phoneNumber } }
  else if connStateOf p = "close" ∨ connStateOf p = "disconnected" then
    { s with session := { s.session with
        status := SessionStatus.disconnected, isHealthy := false } }
  else if connStateOf p = "connecting" then
    { s with session := { s.session with status := SessionStatus.connecting } }
  else s

/-- The CampaignItem branch of `_handle_messages_update` (lines 146-210),
applied to the item at position `i`; `status` is the upper-cased
`data.status`.  The `campaign.messages_* += 1` / `campaign.save(...)` pairs
write back the in-memory value plus one; within one sequential handler run
the in-memory campaign was fetched from the store at entry, so here the write
lands as a plain increment (the write-back semantics itself is modelled
separately for the atomicity claim). -/
def campaignItemUpdate (i : Nat) (status : String) (s : SysState) : SysState :=
  if status = "DELIVERY_ACK" then
    { s with
      items := updateAt (fun it => { it with
        deliveredAt := some s.clock, status := ItemStatus.delivered }) i s.items,
      campaign := { s.campaign with
        messagesDelivered := s.campaign.messagesDelivered + 1 } }
  else if status = "READ" then
    { s with
      items := updateAt (fun it => { it with
        readAt := some s.clock, status := ItemStatus.read }) i s.items,
      campaign := { s.campaign with
        messagesRead := s.campaign.messagesRead + 1 } }
  else if status = "FAILED" then
    { s with
      items := updateAt (fun it => { it with
        status := ItemStatus.failedSt,
        errorMessage := "Falha no envio: " ++ status }) i s.items,
      campaign := { s.campaign with
        messagesFailed := s.campaign.messagesFailed + 1 } }
  else if status = "SERVER_ACK" then
    { s with
      items := updateAt (fun it =>
        if it.status = ItemStatus.pending then
          { it with status := ItemStatus.queued, sentAt := some s.clock }
        else it) i s.items }
  else s

/-- The `Message` row lookup of the fallback (lines 216-224): try
`whatsapp_message_id`, then `external_id`. -/
def msgHit (altId : String) (msgs : List MessageRec) : Option Nat :=
  match firstIdx (fun m => m.whatsappMessageId = altId) msgs with
  | some i => some i
  | none => firstIdx (fun m => m.externalId = altId) msgs

/-- The generic-`Message` fallback of `_handle_messages_update`
(lines 212-238): `alt_message_id = payload.get('key', {}).get('id',
message_id)`; look the row up, then apply `mark_as_delivered` /
`mark_as_read` / `mark_as_failed`. -/
def messageFallback (p : Payload) (messageId status : String) (s : SysState) :
    SysState :=
  match msgHit (p.topKeyDotId.getD messageId) s.msgs with
  | none => s
  | some i =>
    if status = "DELIVERED" ∨ status = "DELIVERY_ACK" ∨
        status = "SERVER_ACK" then
      { s with msgs := updateAt (fun m => { m with
          status := "delivered", deliveredAt := some s.clock }) i s.msgs }
    else if status = "READ" ∨ status = "PLAYED" then
      { s with msgs := updateAt (fun m => { m with
          status := "read", readAt := some s.clock }) i s.msgs }
    else if status = "ERROR" ∨ status = "FAILED" then
      { s with msgs := updateAt (fun m => { m with
          status := "failed", failedAt := some s.clock, errorCode := "",
          errorMessage := p.topMessage.getD "Erro desconhecido" }) i s.msgs }
    else s

/-- The message-id resolution of `_handle_messages_update` (lines 111-131):
`data.keyId`, else `data.key.id` (when `data.key` is a dict), else — after
the warning — `data.messageId`. -/
def resolvedMessageId (p : Payload) : String :=
  if (if p.dataKeyId ≠ "" then p.dataKeyId else p.dataKeyDotId) = "" then
    p.dataMessageId
  else if p.dataKeyId ≠ "" then p.dataKeyId else p.dataKeyDotId

/-- `_handle_messages_update` (lines 93-238): resolve the WhatsApp message id,
upper-case `data.status`, look a `CampaignItem` up by `message_id` first
(campaigns take priority and the function returns) and fall back to the
generic `Message` row. -/
def handle_messages_update (p : Payload) (s : SysState) : SysState :=
  if resolvedMessageId p = "" then s
  else
    match firstIdx (fun it =>
        it.messageId = some (resolvedMessageId p)) s.items with
    | some i => campaignItemUpdate i (strUpper p.dataStatus) s
    | none => messageFallback p (resolvedMessageId p) (strUpper p.dataStatus) s

/-- `_handle_send_message` (lines 241-257): backfill `whatsapp_message_id`
onto `Message` rows matched by `external_id` that do not have one yet. -/
def handle_send_message (p : Payload) (s : SysState) : SysState :=
  if p.topKeyDotId.getD "" = "" then s
  else if p.topMessageId ≠ "" then
    { s with msgs := s.msgs.map (fun m =>
        if m.externalId = p.topMessageId ∧ m.whatsappMessageId = "" then
          { m with whatsappMessageId := p.topKeyDotId.getD "" }
        else m) }
  else s

/-- The event dispatch of `process_webhook`'s `try` block (lines 30-52). -/
def dispatchEvent (log : WebhookLog) (s : SysState) : SysState :=
  if log.eventType = "qrcode.updated" then handle_qrcode_updated s
  else if log.eventType = "connection.update" then
    handle_connection_update log.payload s
  else if log.eventType = "messages.update" then
    handle_messages_update log.payload s
  else if log.eventType = "send.message" then handle_send_message log.payload s
  else s

/-- Fetch a `WebhookLog` row by id (`WebhookLog.objects.get(id=...)`; ids are
unique, so first match). -/
def lookupLog (logId : Nat) : List WebhookLog → Option WebhookLog
  | [] => none
  | l :: rest => if l.id = logId then some l else lookupLog logId rest

/-- `process_webhook` (lines 13-56), parameterized over the body of the `try`
block: the source's handlers can raise (database errors, malformed payload
shapes), and the `except` branch then runs against whatever partial state the
handler left behind.  `handle log s = (none, s1)` is a normal return with
state `s1`; `(some e, s1)` is an exception with message `e` raised after the
partial mutations `s1`. -/
def processWebhookWith
    (handle : WebhookLog → SysState → Option String × SysState)
    (s : SysState) (logId : Nat) : SysState :=
  match lookupLog logId s.logs with
  | none => s
  | some log =>
    match handle log s with
    | (none, s1) => mark_as_processed logId "" s1
    | (some e, s1) => mark_as_processed logId e s1

/-- The `try` body as embedded: the dispatch never raises in the model. -/
def defaultHandle (log : WebhookLog) (s : SysState) :
    Option String × SysState := (none, dispatchEvent log s)

/-- `process_webhook` with the embedded (non-raising) handlers. -/
def process_webhook (s : SysState) (logId : Nat) : SysState :=
  processWebhookWith defaultHandle s logId

/-! ## Dispatch Scheduler — `apps/campaigns/tasks.py` `process_campaign_batch`

One activation: exit unless RUNNING; atomically claim up to `BATCH_SIZE = 10`
PENDING items (flipped to QUEUED inside the claim transaction); loop over the
claimed items re-checking the live campaign status before each send; mark the
outcome of each send; afterwards either re-arm (no state change now) or mark
the campaign COMPLETED via `.update()` (lines 16-193).

The external gateway call is an oracle `oc : Nat → SendOutcome` giving, for
the item at loop index `j`, either the send response (with the optional
extracted `key.id`) or the exception message.  The randomized delay and the
template rendering only shape the text and the wall-clock pacing, which the
oracle absorbs; they touch no persistent state.  A concurrent
`pause` landing mid-batch is injected by `pauseAt = some k`: the pause write
lands after `k` items have been handled and is then observed by the
`campaign.refresh_from_db()` status re-check of the loop. -/

/-- Outcome of one `send_text_sync` / `send_media_sync` call: `sendOk mid`
returns a response whose `key.id` extraction yields `mid` (`none` or an empty
string mean extraction failed, lines 140-156); `sendErr e` raises with
message `e`. -/
inductive SendOutcome : Type
  | sendOk (mid : Option String)
  | sendErr (e : String)
deriving Repr

/-- The `pause` view action (campaigns/api/views.py lines 126-139) and the
mid-batch pause write: RUNNING → PAUSED, otherwise rejected with no state
change. -/
def pause_campaign (s : SysState) : SysState :=
  if s.campaign.status = CampaignStatus.running then
    { s with campaign := { s.campaign with status := CampaignStatus.paused } }
  else s

/-- Positions of the first at-most-`n` PENDING items, in row order: the claim
query `filter(campaign=..., status=PENDING).select_for_update(skip_locked=
True)[:BATCH_SIZE]` (lines 39-45); with no concurrent claimer holding locks,
these are simply the first pending rows. -/
def pendingIdxs (items : List CampaignItem) (n : Nat) : List Nat :=
  ((List.range items.length).filter (fun i =>
    match items[i]? with
    | some it => isPending it
    | none => false)).take n

/-- The claim transaction's QUEUED flip (lines 47-50). -/
def setQueued (idxs : List Nat) (items : List CampaignItem) :
    List CampaignItem :=
  idxs.foldl (fun acc i =>
    updateAt (fun it => { it with status := ItemStatus.queued }) i acc) items

/-- The per-item body of the batch loop (lines 82-175): on success mark SENT,
stamp `sent_at`, persist the extracted `key.id` when truthy, and atomically
increment `messages_sent` via `F('messages_sent') + 1`; on any exception mark
FAILED with the error text and atomically increment `messages_failed`. -/
def sendItemStep (i : Nat) (oc : SendOutcome) (s : SysState) : SysState :=
  match oc with
  | SendOutcome.sendOk mid =>
    { s with
      items := updateAt (fun it => { it with
        status := ItemStatus.sent, sentAt := some s.clock,
        messageId := if mid.getD "" ≠ "" then some (mid.getD "")
                     else it.messageId }) i s.items,
      campaign := { s.campaign with
        messagesSent := s.campaign.messagesSent + 1 } }
  | SendOutcome.sendErr e =>
    { s with
      items := updateAt (fun it => { it with
        status := ItemStatus.failedSt, errorMessage := e }) i s.items,
      campaign := { s.campaign with
        messagesFailed := s.campaign.messagesFailed + 1 } }

/-- The `for item in items:` loop (lines 76-175) over the claimed positions,
carrying the loop index `j`: first the concurrently-landing pause (if its
landing point is now), then the `refresh_from_db` status re-check — breaking
when not RUNNING — then the send with outcome `oc j`. -/
def batchLoop (oc : Nat → SendOutcome) (pauseAt : Option Nat) :
    List Nat → Nat → SysState → SysState
  | [], _, s => s
  | i :: rest, j, s =>
    let s0 := if pauseAt = some j then pause_campaign s else s
    if s0.campaign.status = CampaignStatus.running then
      batchLoop oc pauseAt rest (j + 1) (sendItemStep i (oc j) s0)
    else s0

/-- The completion write `Campaign.objects.filter(pk=...).update(status=
COMPLETED, completed_at=now)` (lines 62-65 and 189-192): only the two fields,
so the F()-updated counters survive — but also a blind status overwrite. -/
def markCompleted (s : SysState) : SysState :=
  { s with campaign := { s.campaign with
      status := CampaignStatus.completed, completedAt := some s.clock } }

/-- The after-the-loop re-arm/complete check (lines 177-192): re-arming
leaves no immediate state change, otherwise the campaign is completed. -/
def batchTail (s2 : SysState) : SysState :=
  if 0 < countP isPending s2.items then s2 else markCompleted s2

/-- `process_campaign_batch` (lines 16-193).  In the zero-claim branch the
QUEUED flip loop runs over nothing, so the state reaching the
`pending_count` re-check is `s` itself. -/
def process_campaign_batch (oc : Nat → SendOutcome) (pauseAt : Option Nat)
    (s : SysState) : SysState :=
  if s.campaign.status = CampaignStatus.running then
    if pendingIdxs s.items 10 = [] then
      if countP isPending s.items = 0 then markCompleted s else s
    else
      batchTail (batchLoop oc pauseAt (pendingIdxs s.items 10) 0
        { s with items := setQueued (pendingIdxs s.items 10) s.items })
  else s

/-! ## Counter write sites — the atomicity discipline

A counter mutation is characterized by the value it stores as a function of
`stored` (the row value at write time) and `snapshot` (the value held by the
in-memory campaign object, read when that object was fetched).  An atomic
relative increment stores `stored + 1` whatever the snapshot; a
read-modify-write stores `snapshot + 1` whatever the row holds. -/

/-- `Campaign.objects.filter(pk=campaign.id).update(messages_sent=
F('messages_sent') + 1)` (campaigns/tasks.py lines 161-163): the database
evaluates `F('messages_sent')` against the stored row at write time. -/
def schedulerSentWrite (stored _snapshot : Nat) : Nat := stored + 1

/-- `...update(messages_failed=F('messages_failed') + 1)` (campaigns/tasks.py
lines 173-175). -/
def schedulerFailedWrite (stored _snapshot : Nat) : Nat := stored + 1

/-- `campaign.messages_delivered += 1; campaign.save(update_fields=
['messages_delivered'])` (webhook_tasks.py lines 161-162): the save writes
the in-memory value plus one, ignoring the stored row. -/
def webhookDeliveredWrite (_stored snapshot : Nat) : Nat := snapshot + 1

/-- `campaign.messages_read += 1; campaign.save(...)` (webhook_tasks.py
lines 173-174). -/
def webhookReadWrite (_stored snapshot : Nat) : Nat := snapshot + 1

/-- `campaign.messages_failed += 1; campaign.save(...)` (webhook_tasks.py
lines 184-185). -/
def webhookFailedWrite (_stored snapshot : Nat) : Nat := snapshot + 1

/-! ## Campaign Lifecycle Manager — `campaign_service.py`

`start_campaign`: no-op if already RUNNING; from DRAFT first resolve
recipients and bulk-create items (raising when the rule is empty or resolves
to nobody); set RUNNING, stamp `started_at` if unset, then trigger the first
batch (lines 14-36).  `_populate_recipients` (lines 38-167) builds a
phone-keyed deduplication map from opted-in supporters matching the tag/group
rule and, for the `team` group, from active tenant members.  Both `raise`
sites fire before any row is written (and the whole body runs inside
`transaction.atomic`), so a failed start leaves the campaign untouched. -/

/-- `Tag` rows (supporters app): id, slug, `is_system`. -/
structure TagRec : Type where
  id : Nat
  slug : String
  isSystem : Bool
deriving DecidableEq, Repr

/-- `Supporter` rows — the fields `_populate_recipients` reads. -/
structure SupporterRec : Type where
  sid : Nat
  name : String
  phone : String
  whatsappOptIn : Bool
  tagIds : List Nat
deriving DecidableEq, Repr

/-- Tenant members (`User` + active `TenantMembership`) — the fields the
`team` branch reads; `activeMember` is `memberships__is_active=True` for the
current tenant. -/
structure UserRec : Type where
  fullName : String
  phone : String
  activeMember : Bool
deriving DecidableEq, Repr

/-- The directory the Recipient Resolver queries. -/
structure TenantData : Type where
  tags : List TagRec
  supporters : List SupporterRec
  users : List UserRec
deriving DecidableEq, Repr

/-- The two `raise ValueError(...)` sites of `_populate_recipients`:
"Nenhum público alvo selecionado" (line 47) and "Nenhum destinatário
encontrado" (line 149). -/
inductive StartError : Type
  | noTargetSelected
  | noRecipientsFound
deriving DecidableEq, Repr

/-- `_clean_phone` (lines 169-173): strip every non-digit character.  The
source returns `None` for falsy input and callers test truthiness, so the
empty string stands for both `None` and `''`. -/
def clean_phone (phone : String) : String :=
  String.mk (phone.toList.filter Char.isDigit)

/-- One value of the `recipients_map`: display name, original phone, optional
supporter link. -/
structure RecipientInfo : Type where
  name : String
  phone : String
  supporterId : Option Nat
deriving DecidableEq, Repr

/-- Python-dict assignment `recipients_map[k] = v`: overwrite in place,
preserving first-insertion order. -/
def upsertAssoc (k : String) (v : RecipientInfo) :
    List (String × RecipientInfo) → List (String × RecipientInfo)
  | [] => [(k, v)]
  | (k0, v0) :: rest =>
    if k0 = k then (k0, v) :: rest else (k0, v0) :: upsertAssoc k v rest

/-- `clean_phone in recipients_map`. -/
def containsKey (k : String) (m : List (String × RecipientInfo)) : Bool :=
  m.any (fun kv => kv.1 = k)

/-- `Tag.objects.filter(slug=..., is_system=True).first()` (lines 60, 65). -/
def systemTag (slug : String) (t : TenantData) : Option TagRec :=
  t.tags.find? (fun tg => tg.slug == slug && tg.isSystem)

/-- Whether a supporter matches the accumulated `qs_filter` disjunction
(lines 52-67): any target tag, or the system `lead` tag when the `leads`
group is requested, or the system `apoiador` tag when the `supporters` group
is requested. -/
def supporterMatches (t : TenantData) (c : Campaign) (sp : SupporterRec) :
    Bool :=
  let leadHit := fun (o : Option TagRec) => match o with
    | some tg => sp.tagIds.contains tg.id
    | none => false
  (!c.targetTags.isEmpty && sp.tagIds.any (fun i => c.targetTags.contains i)) ||
  (c.targetGroups.contains "leads" && leadHit (systemTag "lead" t)) ||
  (c.targetGroups.contains "supporters" && leadHit (systemTag "apoiador" t))

/-- Whether `qs_filter` is non-empty (`if qs_filter:` line 69): at least one
`Q(...)` was OR-ed in. -/
def qsFilterNonEmpty (t : TenantData) (c : Campaign) : Bool :=
  !c.targetTags.isEmpty ||
  (c.targetGroups.contains "leads" && (systemTag "lead" t).isSome) ||
  (c.targetGroups.contains "supporters" && (systemTag "apoiador" t).isSome)

/-- The `recipients_map` after both passes of `_populate_recipients`
(lines 49-146): opted-in supporters with a phone that match the filter,
keyed by cleaned phone (later rows overwrite); then, for the `team` group,
active members with a phone, inserted only when the key is new. -/
def resolvedRecipients (t : TenantData) (c : Campaign) :
    List (String × RecipientInfo) :=
  let m0 : List (String × RecipientInfo) := []
  let m1 :=
    if qsFilterNonEmpty t c then
      (t.supporters.filter (fun sp =>
        sp.whatsappOptIn ∧ sp.phone ≠ "" ∧ supporterMatches t c sp)).foldl
        (fun m sp =>
          let cp := clean_phone sp.phone
          if cp ≠ "" then upsertAssoc cp ⟨sp.name, sp.phone, some sp.sid⟩ m
          else m) m0
    else m0
  if c.targetGroups.contains "team" then
    (t.users.filter (fun u => u.activeMember ∧ u.phone ≠ "")).foldl
      (fun m u =>
        let cp := clean_phone u.phone
        if cp ≠ "" ∧ ¬ containsKey cp m then
          upsertAssoc cp ⟨u.fullName, u.phone, none⟩ m
        else m) m1
  else m1

/-- `_populate_recipients` (lines 38-167): raise `NoTargetSelected` when the
rule is empty, resolve, raise `NoRecipientsFound` when the map is empty,
otherwise bulk-create PENDING items and return them. -/
def populate_recipients (t : TenantData) (c : Campaign) :
    Except StartError (List CampaignItem) :=
  if c.targetTags = [] ∧ c.targetGroups = [] then
    Except.error StartError.noTargetSelected
  else if resolvedRecipients t c = [] then
    Except.error StartError.noRecipientsFound
  else
    Except.ok ((resolvedRecipients t c).map (fun kv =>
      { supporterId := kv.2.supporterId, recipientName := kv.2.name,
        recipientPhone := kv.2.phone, status := ItemStatus.pending,
        messageId := none, errorMessage := "", sentAt := none,
        deliveredAt := none, readAt := none }))

/-- The tail of `start_campaign`'s transaction (lines 29-32): set RUNNING,
stamp `started_at` only when unset. -/
def startFinish (s1 : SysState) : SysState :=
  { s1 with campaign := { s1.campaign with
      status := CampaignStatus.running,
      startedAt := if s1.campaign.startedAt = none then some s1.clock
                   else s1.campaign.startedAt } }

/-- `start_campaign` (lines 14-36).  The `Bool` of the result records whether
`process_campaign_batch.delay` was triggered: the early RUNNING return
reaches neither the transaction nor the task dispatch.  Population runs only
on the DRAFT branch; from PAUSED/FAILED the items are assumed populated. -/
def start_campaign (t : TenantData) (s : SysState) :
    Except StartError (SysState × Bool) :=
  if s.campaign.status = CampaignStatus.running then Except.ok (s, false)
  else if s.campaign.status = CampaignStatus.draft then
    match populate_recipients t s.campaign with
    | Except.error e => Except.error e
    | Except.ok newItems =>
      Except.ok (startFinish { s with
        items := s.items ++ newItems,
        campaign := { s.campaign with
          totalRecipients := newItems.length } }, true)
  else Except.ok (startFinish s, true)

/-! ## Gateway Client phone normalization — `whatsapp_service.py`

`_format_phone` (lines 470-489) and its use by `send_text` /
`send_text_sync` / `send_media` / `send_media_sync` (lines 303-446), which
all put `self._format_phone(phone)` into the request's `number` field.
Phones are modelled as character lists (Python strings). -/

/-- Whether the string starts with the Brazilian country code `"55"`. -/
def startsWith55 : List Char → Bool
  | '5' :: '5' :: _ => true
  | _ => false

/-- `re.sub(r'\D', '', phone)` (line 479): keep digits only. -/
def phoneDigits (phone : List Char) : List Char := phone.filter Char.isDigit

/-- Lines 481-483: strip a leading `55` when more than 11 digits remain. -/
def stripCC (c : List Char) : List Char :=
  if startsWith55 c ∧ 11 < c.length then c.drop 2 else c

/-- `_format_phone` (lines 470-489): keep digits only; strip a leading `55`
when more than 11 digits remain; prepend `55` when absent. -/
def format_phone (phone : List Char) : List Char :=
  if ¬ startsWith55 (stripCC (phoneDigits phone)) then
    '5' :: '5' :: stripCC (phoneDigits phone)
  else stripCC (phoneDigits phone)

/-- The `number` field of the body `send_text_sync` posts to
`/message/sendText/...` (lines 340-360). -/
def sendTextNumber (phone : List Char) : List Char := format_phone phone

/-- The `number` field of the body `send_media_sync` posts to
`/message/sendMedia/...` (lines 412-446). -/
def sendMediaNumber (phone : List Char) : List Char := format_phone phone

/-! ## Webhook Ingestion Gateway — `webhook_views.py`

The public endpoint resolves the path's instance name across every active
tenant's partition, 404s with no state change on a miss, and on a hit
persists the `WebhookLog`, applies the synchronous session updates and
enqueues `process_webhook` (lines 18-168). -/

/-- One tenant (`Client` row plus its partitioned tables). -/
structure TenantRec : Type where
  schemaName : String
  isActive : Bool
  sessions : List SessionRec
  logs : List WebhookLog
deriving DecidableEq, Repr

/-- The shared (public-schema) view of the system. -/
structure PublicState : Type where
  tenants : List TenantRec
  clock : Nat
deriving DecidableEq, Repr

/-- `WhatsAppSession.objects.get(instance_name=..., is_active=True)` inside
one tenant's partition (lines 51-54); instance names are unique per tenant,
so the first match. -/
def findSessionIn (t : TenantRec) (instanceName : String) : Option Nat :=
  firstIdx (fun ss => ss.instanceName = instanceName ∧ ss.isActive) t.sessions

/-- `get_session_by_instance_name` (lines 32-64): scan
`Client.objects.filter(is_active=True)` in row order; return the first
tenant/session hit, `none` when no active tenant has a matching active
session. -/
def get_session_by_instance_name (ps : PublicState) (instanceName : String) :
    Option (Nat × Nat) :=
  (List.range ps.tenants.length).findSome? (fun ti =>
    match ps.tenants[ti]? with
    | some t =>
      if t.isActive then (findSessionIn t instanceName).map (fun si => (ti, si))
      else none
    | none => none)

/-- `_process_event_sync` (lines 130-168), applied to session `si` of tenant
`ti`: immediate session-state updates for `qrcode.updated` and
`connection.update`; message events are deferred to the async task. -/
def process_event_sync (ti si : Nat) (eventType : String) (p : Payload)
    (ps : PublicState) : PublicState :=
  let setSession := fun (f : SessionRec → SessionRec) =>
    { ps with tenants := updateAt (fun t =>
        { t with sessions := updateAt f si t.sessions }) ti ps.tenants }
  if eventType = "qrcode.updated" then
    setSession (fun ss => { ss with status := SessionStatus.connecting })
  else if eventType = "connection.update" then
    if p.dataState = some "open" then
      setSession (fun ss => { ss with
        status := SessionStatus.connected,
        phoneNumber := if p.dataWidUser ≠ "" then "+" ++ p.dataWidUser
                       else ss.phoneNumber })
    else if p.dataState = some "close" then
      setSession (fun ss => { ss with
        status := SessionStatus.disconnected, phoneNumber := "" })
    else if p.dataState = some "connecting" then
      setSession (fun ss => { ss with status := SessionStatus.connecting })
    else ps
  else ps

/-- `WebhookView.post` (lines 66-128): returns the HTTP status, the resulting
state, and the list of `(tenant, webhook_log id)` arguments handed to
`process_webhook.delay`.  On a resolution miss: `404` and nothing else
(lines 89-95).  On a hit: create the `WebhookLog` (fresh id = row count, logs
are never deleted), run the synchronous updates, enqueue the log id,
return `202`. -/
def webhook_post (ps : PublicState) (instanceName eventType : String)
    (p : Payload) : Nat × PublicState × List (Nat × Nat) :=
  match get_session_by_instance_name ps instanceName with
  | none => (404, ps, [])
  | some (ti, si) =>
    let logId := match ps.tenants[ti]? with
      | some t => t.logs.length
      | none => 0
    let ps1 := { ps with tenants := updateAt (fun t =>
        { t with logs := t.logs ++
            [⟨logId, eventType, p, false, none, ""⟩] }) ti ps.tenants }
    let ps2 := process_event_sync ti si eventType p ps1
    (202, ps2, [(ti, logId)])

/-! ## The reachable-state transition system

One event is one complete synchronous unit of the source, in the tenant of
the campaign under study: a `start` request (the view's status gate plus
`campaign_service.start_campaign`), a `pause` request, one
`process_campaign_batch` activation (with the gateway outcome oracle and the
landing point of a concurrently-arriving pause), the ingestion of one webhook
for this tenant's session (log row + synchronous session updates, as in the
matched branch of `WebhookView.post`), and one delivery of the
`process_webhook` task (Celery is at-least-once: the same log id may be
delivered again, and ids that never existed simply miss). -/

inductive Ev : Type
  | evStart (t : TenantData)
  | evPause
  | evBatch (oc : Nat → SendOutcome) (pauseAt : Option Nat)
  | evReceive (eventType : String) (p : Payload)
  | evRun (logId : Nat)

/-- The single-tenant face of `WebhookView.post`'s matched branch: persist
the log row, then the synchronous session updates of `_process_event_sync`
(which for this state only touch `session`). -/
def webhookReceive (eventType : String) (p : Payload) (s : SysState) :
    SysState :=
  let s1 := { s with logs := s.logs ++
      [⟨s.logs.length, eventType, p, false, none, ""⟩] }
  if eventType = "qrcode.updated" then
    { s1 with session := { s1.session with status := SessionStatus.connecting } }
  else if eventType = "connection.update" then
    if p.dataState = some "open" then
      { s1 with session := { s1.session with
          status := SessionStatus.connected,
          phoneNumber := if p.dataWidUser ≠ "" then "+" ++ p.dataWidUser
                         else s1.session.phoneNumber } }
    else if p.dataState = some "close" then
      { s1 with session := { s1.session with
          status := SessionStatus.disconnected, phoneNumber := "" } }
    else if p.dataState = some "connecting" then
      { s1 with session := { s1.session with
          status := SessionStatus.connecting } }
    else s1
  else s1

/-- The `start` view action (campaigns/api/views.py lines 43-63): gate on
DRAFT/PAUSED/FAILED, then `campaign_service.start_campaign`; a service
`raise` rolls back to the unchanged state (`transaction.atomic`). -/
def startRequest (t : TenantData) (s : SysState) : SysState :=
  if s.campaign.status = CampaignStatus.draft ∨
      s.campaign.status = CampaignStatus.paused ∨
      s.campaign.status = CampaignStatus.failedSt then
    match start_campaign t s with
    | Except.ok (s1, _) => s1
    | Except.error _ => s
  else s

def stepEv : Ev → SysState → SysState
  | Ev.evStart t, s => startRequest t s
  | Ev.evPause, s => pause_campaign s
  | Ev.evBatch oc pauseAt, s => process_campaign_batch oc pauseAt s
  | Ev.evReceive eventType p, s => webhookReceive eventType p s
  | Ev.evRun logId, s => process_webhook s logId

/-- A fresh DRAFT campaign with its (empty) partition. -/
def initState (c0 : Campaign) (sess : SessionRec) : SysState :=
  { campaign := c0, items := [], logs := [], msgs := [], session := sess,
    clock := 0 }

def runTrace (c0 : Campaign) (sess : SessionRec) (tr : List Ev) : SysState :=
  tr.foldl (fun s e => stepEv e s) (initState c0 sess)

/-- A DRAFT campaign starts with zero counters and no timestamps
(model defaults of `campaigns/models.py`). -/
def draftCampaign (message : String) (tags : List Nat) (groups : List String) :
    Campaign :=
  { message := message, mediaUrl := none, mediaType := "",
    targetTags := tags, targetGroups := groups,
    status := CampaignStatus.draft, totalRecipients := 0, messagesSent := 0,
    messagesDelivered := 0, messagesRead := 0, messagesFailed := 0,
    startedAt := none, completedAt := none }

def someSession : SessionRec :=
  { name := "s", instanceName := "inst", isActive := true,
    status := SessionStatus.connected, isHealthy := true, phoneNumber := "",
    lastHealthCheck := none }

/-! ## Invariants

`invA` is the core bookkeeping invariant tying the denormalized campaign
counters to the item rows; it is inductive for every event as long as no
send-failure (`FAILED`) message-update webhook is ingested (those
double-count, see the C2 counterexample).  `benignLogsP` pushes that
restriction from the ingested events to the stored log rows that
`process_webhook` may later replay. -/

def itemsOk (items : List CampaignItem) : Prop :=
  ∀ (i : Nat) (it : CampaignItem), items[i]? = some it →
    it.messageId ≠ none → isSentLike it = true

def countersOk (s : SysState) : Prop :=
  s.campaign.totalRecipients = s.items.length ∧
  s.campaign.messagesSent = countP isSentLike s.items ∧
  s.campaign.messagesFailed = countP isFailed s.items

def benignLogsP (s : SysState) : Prop :=
  ∀ l ∈ s.logs, strUpper l.payload.dataStatus ≠ "FAILED"

def invA (s : SysState) : Prop :=
  countersOk s ∧ itemsOk s.items ∧
  (s.campaign.status = CampaignStatus.draft → s.items = []) ∧ benignLogsP s

theorem sentLike_status (it : CampaignItem) (h : isSentLike it = true) :
    it.status = ItemStatus.sent ∨ it.status = ItemStatus.delivered ∨
      it.status = ItemStatus.read := by
  simpa [isSentLike, decide_eq_true_eq] using h

theorem sentLike_not_others (it : CampaignItem) (h : isSentLike it = true) :
    isPending it = false ∧ isQueued it = false ∧ isFailed it = false := by
  rcases sentLike_status it h with h1 | h1 | h1 <;>
    simp [isPending, isQueued, isFailed, h1]

theorem lookupLog_mem :
    ∀ {logs : List WebhookLog} {logId : Nat} {l : WebhookLog},
      lookupLog logId logs = some l → l ∈ logs := by
  intro logs
  induction logs with
  | nil => intro logId l h; simp [lookupLog] at h
  | cons x xs ih =>
    intro logId l h
    by_cases hx : x.id = logId
    · simp [lookupLog, hx] at h
      simp [← h]
    · simp [lookupLog, hx] at h
      simp [ih h]

theorem messageFallback_frame (p : Payload) (mid st : String) (s : SysState) :
    (messageFallback p mid st s).campaign = s.campaign ∧
    (messageFallback p mid st s).items = s.items ∧
    (messageFallback p mid st s).logs = s.logs := by
  unfold messageFallback
  split
  · exact ⟨rfl, rfl, rfl⟩
  · split_ifs <;> exact ⟨rfl, rfl, rfl⟩

theorem handle_send_message_frame (p : Payload) (s : SysState) :
    (handle_send_message p s).campaign = s.campaign ∧
    (handle_send_message p s).items = s.items ∧
    (handle_send_message p s).logs = s.logs := by
  unfold handle_send_message
  split_ifs <;> exact ⟨rfl, rfl, rfl⟩

theorem handle_connection_update_frame (p : Payload) (s : SysState) :
    (handle_connection_update p s).campaign = s.campaign ∧
    (handle_connection_update p s).items = s.items ∧
    (handle_connection_update p s).logs = s.logs := by
  unfold handle_connection_update
  split_ifs <;> exact ⟨rfl, rfl, rfl⟩

/-- What one CampaignItem reconciliation step preserves, given that the
matched item is sent-like (which `itemsOk` guarantees for any item matched
by message id) and the event is not a send-failure. -/
theorem campaignItemUpdate_inv (i : Nat) (status : String) (s : SysState)
    (hb : status ≠ "FAILED") (it : CampaignItem)
    (hget : s.items[i]? = some it) (hsl : isSentLike it = true)
    (hA : invA s) :
    invA (campaignItemUpdate i status s) ∧
    (campaignItemUpdate i status s).campaign.status = s.campaign.status ∧
    countP isPending (campaignItemUpdate i status s).items =
      countP isPending s.items ∧
    countP isQueued (campaignItemUpdate i status s).items =
      countP isQueued s.items ∧
    (campaignItemUpdate i status s).logs = s.logs := by
  obtain ⟨⟨hTot, hSent, hFail⟩, hItems, hDraft, hLogs⟩ := hA
  obtain ⟨hnp, hnq, hnf⟩ := sentLike_not_others it hsl
  unfold campaignItemUpdate
  split_ifs with h1 h2 h3
  all_goals try (exact ⟨⟨⟨hTot, hSent, hFail⟩, hItems, hDraft, hLogs⟩,
    rfl, rfl, rfl, rfl⟩)
  -- DELIVERY_ACK
  · set f : CampaignItem → CampaignItem := fun x =>
      { x with deliveredAt := some s.clock, status := ItemStatus.delivered }
    have hcount := fun (p : CampaignItem → Bool) =>
      countP_updateAt p f i s.items it hget
    have hfit : isSentLike (f it) = true := by simp [f, isSentLike]
    have hfitP : isPending (f it) = false := by simp [f, isPending]
    have hfitQ : isQueued (f it) = false := by simp [f, isQueued]
    have hfitF : isFailed (f it) = false := by simp [f, isFailed]
    refine ⟨⟨⟨?_, ?_, ?_⟩, ?_, ?_, hLogs⟩, rfl, ?_, ?_, rfl⟩
    · simpa [updateAt_length] using hTot
    · have := hcount isSentLike; simp [hsl, hfit] at this; dsimp only; omega
    · have := hcount isFailed; simp [hnf, hfitF] at this; dsimp only; omega
    · intro j jt hj hmid
      dsimp only at hj
      rw [updateAt_get?] at hj
      by_cases hij : i = j
      · rw [if_pos hij, ← hij, hget] at hj
        have hj2 : f it = jt := by simpa using hj
        exact hj2 ▸ hfit
      · simp [hij] at hj
        exact hItems j jt hj hmid
    · intro hd
      exact absurd (hDraft hd ▸ hget) (by simp [hDraft hd])
    · have := hcount isPending; simp [hnp, hfitP] at this; dsimp only; omega
    · have := hcount isQueued; simp [hnq, hfitQ] at this; dsimp only; omega
  -- READ
  · set f : CampaignItem → CampaignItem := fun x =>
      { x with readAt := some s.clock, status := ItemStatus.read }
    have hcount := fun (p : CampaignItem → Bool) =>
      countP_updateAt p f i s.items it hget
    have hfit : isSentLike (f it) = true := by simp [f, isSentLike]
    have hfitP : isPending (f it) = false := by simp [f, isPending]
    have hfitQ : isQueued (f it) = false := by simp [f, isQueued]
    have hfitF : isFailed (f it) = false := by simp [f, isFailed]
    refine ⟨⟨⟨?_, ?_, ?_⟩, ?_, ?_, hLogs⟩, rfl, ?_, ?_, rfl⟩
    · simpa [updateAt_length] using hTot
    · have := hcount isSentLike; simp [hsl, hfit] at this; dsimp only; omega
    · have := hcount isFailed; simp [hnf, hfitF] at this; dsimp only; omega
    · intro j jt hj hmid
      dsimp only at hj
      rw [updateAt_get?] at hj
      by_cases hij : i = j
      · rw [if_pos hij, ← hij, hget] at hj
        have hj2 : f it = jt := by simpa using hj
        exact hj2 ▸ hfit
      · simp [hij] at hj
        exact hItems j jt hj hmid
    · intro hd
      exact absurd (hDraft hd ▸ hget) (by simp [hDraft hd])
    · have := hcount isPending; simp [hnp, hfitP] at this; dsimp only; omega
    · have := hcount isQueued; simp [hnq, hfitQ] at this; dsimp only; omega
  -- SERVER_ACK: the matched item is sent-like, hence not PENDING: no change.
  · set f : CampaignItem → CampaignItem := fun x =>
      if x.status = ItemStatus.pending then
        { x with status := ItemStatus.queued, sentAt := some s.clock }
      else x
    have hfid : f it = it := by
      have : ¬ it.status = ItemStatus.pending := by
        simpa [isPending, decide_eq_true_eq] using
          (by simp [hnp] : ¬ isPending it = true)
      simp [f, this]
    have hcount := fun (p : CampaignItem → Bool) =>
      countP_updateAt p f i s.items it hget
    refine ⟨⟨⟨?_, ?_, ?_⟩, ?_, ?_, hLogs⟩, rfl, ?_, ?_, rfl⟩
    · simpa [updateAt_length] using hTot
    · have := hcount isSentLike; simp [hfid] at this; dsimp only; omega
    · have := hcount isFailed; simp [hfid] at this; dsimp only; omega
    · intro j jt hj hmid
      dsimp only at hj
      rw [updateAt_get?] at hj
      by_cases hij : i = j
      · rw [if_pos hij, ← hij, hget] at hj
        have hj2 : f it = jt := by simpa using hj
        rw [hfid] at hj2
        exact hj2 ▸ hsl
      · simp [hij] at hj
        exact hItems j jt hj hmid
    · intro hd
      exact absurd (hDraft hd ▸ hget) (by simp [hDraft hd])
    · have := hcount isPending; simp [hfid] at this; dsimp only; omega
    · have := hcount isQueued; simp [hfid] at this; dsimp only; omega

/-- `_handle_messages_update` preserves `invA` (and the pending/queued counts
and campaign status) as long as the payload is not a send-failure event. -/
theorem handle_messages_update_inv (p : Payload) (s : SysState)
    (hb : strUpper p.dataStatus ≠ "FAILED") (hA : invA s) :
    invA (handle_messages_update p s) ∧
    (handle_messages_update p s).campaign.status = s.campaign.status ∧
    countP isPending (handle_messages_update p s).items =
      countP isPending s.items ∧
    countP isQueued (handle_messages_update p s).items =
      countP isQueued s.items ∧
    (handle_messages_update p s).logs = s.logs := by
  unfold handle_messages_update
  split_ifs
  · exact ⟨hA, rfl, rfl, rfl, rfl⟩
  · rcases hfi : firstIdx (fun it =>
        it.messageId = some (resolvedMessageId p)) s.items with _ | i <;>
      rw [hfi]
    · obtain ⟨hc, hi, hl⟩ :=
        messageFallback_frame p (resolvedMessageId p) (strUpper p.dataStatus) s
      obtain ⟨⟨hTot, hSent, hFail⟩, hItems, hDraft, hLogs⟩ := hA
      refine ⟨⟨⟨?_, ?_, ?_⟩, ?_, ?_, ?_⟩, ?_, ?_, ?_, ?_⟩
      · rw [hc, hi]; exact hTot
      · rw [hc, hi]; exact hSent
      · rw [hc, hi]; exact hFail
      · rw [hi]; exact hItems
      · rw [hc, hi]; exact hDraft
      · intro l hlmem
        exact hLogs l (hl ▸ hlmem)
      · rw [hc]
      · rw [hi]
      · rw [hi]
      · exact hl
    · obtain ⟨it, hget, hpit⟩ := firstIdx_some _ hfi
      have hmid : it.messageId ≠ none := by
        have : it.messageId = some (resolvedMessageId p) := by
          simpa [decide_eq_true_eq] using hpit
        simp [this]
      have hsl := hA.2.1 i it hget hmid
      exact campaignItemUpdate_inv i (strUpper p.dataStatus) s hb it hget hsl hA

theorem mark_as_processed_inv (logId : Nat) (err : String) (s : SysState)
    (hA : invA s) :
    invA (mark_as_processed logId err s) ∧
    (mark_as_processed logId err s).campaign = s.campaign ∧
    (mark_as_processed logId err s).items = s.items := by
  obtain ⟨hC, hI, hD, hL⟩ := hA
  refine ⟨⟨hC, hI, hD, ?_⟩, rfl, rfl⟩
  intro l hl
  rcases mem_updateFirst _ _ hl with h | ⟨y, hy, hxy⟩
  · exact hL l h
  · rw [hxy]
    exact hL y hy

/-- One `process_webhook` delivery preserves `invA`, the campaign status and
the pending/queued counts, provided every stored log row is benign (which
`invA` itself carries). -/
theorem process_webhook_inv (s : SysState) (logId : Nat) (hA : invA s) :
    invA (process_webhook s logId) ∧
    (process_webhook s logId).campaign.status = s.campaign.status ∧
    countP isPending (process_webhook s logId).items =
      countP isPending s.items ∧
    countP isQueued (process_webhook s logId).items =
      countP isQueued s.items := by
  unfold process_webhook processWebhookWith defaultHandle
  rcases hlog : lookupLog logId s.logs with _ | log
  · exact ⟨hA, rfl, rfl, rfl⟩
  · have hbenign : strUpper log.payload.dataStatus ≠ "FAILED" :=
      hA.2.2.2 log (lookupLog_mem hlog)
    have hdis : invA (dispatchEvent log s) ∧
        (dispatchEvent log s).campaign.status = s.campaign.status ∧
        countP isPending (dispatchEvent log s).items =
          countP isPending s.items ∧
        countP isQueued (dispatchEvent log s).items =
          countP isQueued s.items := by
      unfold dispatchEvent
      split_ifs with e1 e2 e3 e4
      · exact ⟨⟨hA.1, hA.2.1, hA.2.2.1, hA.2.2.2⟩, rfl, rfl, rfl⟩
      · obtain ⟨hc, hi, hl⟩ := handle_connection_update_frame log.payload s
        obtain ⟨⟨hTot, hSent, hFail⟩, hItems, hDraft, hLogs⟩ := hA
        refine ⟨⟨⟨?_, ?_, ?_⟩, ?_, ?_, ?_⟩, ?_, ?_, ?_⟩
        · rw [hc, hi]; exact hTot
        · rw [hc, hi]; exact hSent
        · rw [hc, hi]; exact hFail
        · rw [hi]; exact hItems
        · rw [hc, hi]; exact hDraft
        · intro l hlmem
          exact hLogs l (hl ▸ hlmem)
        · rw [hc]
        · rw [hi]
        · rw [hi]
      · have := handle_messages_update_inv log.payload s hbenign hA
        exact ⟨this.1, this.2.1, this.2.2.1, this.2.2.2.1⟩
      · obtain ⟨hc, hi, hl⟩ := handle_send_message_frame log.payload s
        obtain ⟨⟨hTot, hSent, hFail⟩, hItems, hDraft, hLogs⟩ := hA
        refine ⟨⟨⟨?_, ?_, ?_⟩, ?_, ?_, ?_⟩, ?_, ?_, ?_⟩
        · rw [hc, hi]; exact hTot
        · rw [hc, hi]; exact hSent
        · rw [hc, hi]; exact hFail
        · rw [hi]; exact hItems
        · rw [hc, hi]; exact hDraft
        · intro l hlmem
          exact hLogs l (hl ▸ hlmem)
        · rw [hc]
        · rw [hi]
        · rw [hi]
      · exact ⟨⟨hA.1, hA.2.1, hA.2.2.1, hA.2.2.2⟩, rfl, rfl, rfl⟩
    obtain ⟨hdA, hdS, hdP, hdQ⟩ := hdis
    obtain ⟨hmA, hmC, hmI⟩ :=
      mark_as_processed_inv logId "" (dispatchEvent log s) hdA
    refine ⟨hmA, ?_, ?_, ?_⟩
    · rw [hmC]; exact hdS
    · rw [hmI]; exact hdP
    · rw [hmI]; exact hdQ

theorem webhookReceive_frame (eventType : String) (p : Payload)
    (s : SysState) :
    (webhookReceive eventType p s).campaign = s.campaign ∧
    (webhookReceive eventType p s).items = s.items ∧
    (webhookReceive eventType p s).logs = s.logs ++
      [⟨s.logs.length, eventType, p, false, none, ""⟩] := by
  unfold webhookReceive
  split_ifs <;> exact ⟨rfl, rfl, rfl⟩

/-- Ingesting a webhook preserves `invA` when the event is not a
send-failure message update. -/
theorem webhookReceive_inv (eventType : String) (p : Payload) (s : SysState)
    (hb : strUpper p.dataStatus ≠ "FAILED") (hA : invA s) :
    invA (webhookReceive eventType p s) ∧
    (webhookReceive eventType p s).campaign = s.campaign ∧
    (webhookReceive eventType p s).items = s.items := by
  obtain ⟨hc, hi, hl⟩ := webhookReceive_frame eventType p s
  obtain ⟨⟨hTot, hSent, hFail⟩, hItems, hDraft, hLogs⟩ := hA
  refine ⟨⟨⟨?_, ?_, ?_⟩, ?_, ?_, ?_⟩, hc, hi⟩
  · rw [hc, hi]; exact hTot
  · rw [hc, hi]; exact hSent
  · rw [hc, hi]; exact hFail
  · rw [hi]; exact hItems
  · rw [hc, hi]; exact hDraft
  · intro l hlmem
    rw [hl] at hlmem
    rcases List.mem_append.mp hlmem with h | h
    · exact hLogs l h
    · simp at h
      rw [h]
      exact hb

theorem pause_campaign_inv (s : SysState) (hA : invA s) :
    invA (pause_campaign s) ∧
    (pause_campaign s).items = s.items ∧
    (pause_campaign s).logs = s.logs := by
  obtain ⟨⟨hTot, hSent, hFail⟩, hItems, hDraft, hLogs⟩ := hA
  unfold pause_campaign
  split_ifs with h
  · exact ⟨⟨⟨hTot, hSent, hFail⟩, hItems, by intro hd; simp at hd, hLogs⟩,
      rfl, rfl⟩
  · exact ⟨⟨⟨hTot, hSent, hFail⟩, hItems, hDraft, hLogs⟩, rfl, rfl⟩

/-! ### Properties of the claim step -/

theorem setQueued_get?_notmem :
    ∀ (idxs : List Nat) (items : List CampaignItem) (j : Nat), j ∉ idxs →
      (setQueued idxs items)[j]? = items[j]? := by
  intro idxs
  induction idxs with
  | nil => intro items j _; rfl
  | cons a rest ih =>
    intro items j hj
    have hja : a ≠ j := fun h => hj (by simp [h])
    have hjr : j ∉ rest := fun h => hj (by simp [h])
    show (setQueued rest (updateAt _ a items))[j]? = items[j]?
    rw [ih _ j hjr, updateAt_get?, if_neg hja]

theorem setQueued_get?_mem :
    ∀ (idxs : List Nat) (items : List CampaignItem) (i : Nat), idxs.Nodup →
      i ∈ idxs →
      (setQueued idxs items)[i]? =
        items[i]?.map (fun it => { it with status := ItemStatus.queued }) := by
  intro idxs
  induction idxs with
  | nil => intro items i _ h; simp at h
  | cons a rest ih =>
    intro items i hnd hi
    rcases List.mem_cons.mp hi with h | h
    · subst h
      have hnr : i ∉ rest := (List.nodup_cons.mp hnd).1
      show (setQueued rest (updateAt _ i items))[i]? = _
      rw [setQueued_get?_notmem rest _ i hnr, updateAt_get?, if_pos rfl]
    · have hai : a ≠ i := by
        rintro rfl
        exact (List.nodup_cons.mp hnd).1 h
      show (setQueued rest (updateAt _ a items))[i]? = _
      rw [ih _ i (List.nodup_cons.mp hnd).2 h, updateAt_get?, if_neg hai]

theorem setQueued_counts :
    ∀ (idxs : List Nat) (items : List CampaignItem), idxs.Nodup →
      (∀ i ∈ idxs, ∃ it, items[i]? = some it ∧ isPending it = true) →
      countP isPending (setQueued idxs items) + idxs.length =
        countP isPending items ∧
      countP isQueued (setQueued idxs items) =
        countP isQueued items + idxs.length ∧
      countP isSentLike (setQueued idxs items) = countP isSentLike items ∧
      countP isFailed (setQueued idxs items) = countP isFailed items ∧
      countP isDelivered (setQueued idxs items) =
        countP isDelivered items ∧
      countP isRead (setQueued idxs items) = countP isRead items ∧
      (setQueued idxs items).length = items.length := by
  intro idxs
  induction idxs with
  | nil =>
    intro items _ _
    exact ⟨by simp [setQueued], rfl, rfl, rfl, rfl, rfl, rfl⟩
  | cons a rest ih =>
    intro items hnd hp
    obtain ⟨it, hget, hpit⟩ := hp a (by simp)
    set fq : CampaignItem → CampaignItem :=
      fun x => { x with status := ItemStatus.queued }
    have hcount := fun (p : CampaignItem → Bool) =>
      countP_updateAt p fq a items it hget
    have hqP : isPending (fq it) = false := by simp [fq, isPending]
    have hqQ : isQueued (fq it) = true := by simp [fq, isQueued]
    have hqS : isSentLike (fq it) = false := by simp [fq, isSentLike]
    have hqF : isFailed (fq it) = false := by simp [fq, isFailed]
    have hqD : isDelivered (fq it) = false := by simp [fq, isDelivered]
    have hqR : isRead (fq it) = false := by simp [fq, isRead]
    have hitP : isPending it = true := hpit
    have hitQ : isQueued it = false := by
      have := hpit
      simp [isPending, decide_eq_true_eq] at this
      simp [isQueued, this]
    have hitS : isSentLike it = false := by
      have := hpit
      simp [isPending, decide_eq_true_eq] at this
      simp [isSentLike, this]
    have hitF : isFailed it = false := by
      have := hpit
      simp [isPending, decide_eq_true_eq] at this
      simp [isFailed, this]
    have hitD : isDelivered it = false := by
      have := hpit
      simp [isPending, decide_eq_true_eq] at this
      simp [isDelivered, this]
    have hitR : isRead it = false := by
      have := hpit
      simp [isPending, decide_eq_true_eq] at this
      simp [isRead, this]
    have hrest : ∀ i ∈ rest, ∃ jt, (updateAt fq a items)[i]? = some jt ∧
        isPending jt = true := by
      intro i hi
      have hai : a ≠ i := by
        rintro rfl
        exact (List.nodup_cons.mp hnd).1 hi
      obtain ⟨jt, hjt, hpjt⟩ := hp i (by simp [hi])
      exact ⟨jt, by rw [updateAt_get?, if_neg hai]; exact hjt, hpjt⟩
    have hIH := ih (updateAt fq a items) (List.nodup_cons.mp hnd).2 hrest
    have h1 := hcount isPending
    have h2 := hcount isQueued
    have h3 := hcount isSentLike
    have h4 := hcount isFailed
    have h5 := hcount isDelivered
    have h6 := hcount isRead
    rw [hitP, hqP] at h1
    rw [hitQ, hqQ] at h2
    rw [hitS, hqS] at h3
    rw [hitF, hqF] at h4
    rw [hitD, hqD] at h5
    rw [hitR, hqR] at h6
    have hff : (false = true) = False := by simp
    simp only [if_true, hff, if_false] at h1 h2 h3 h4 h5 h6
    have hlen : (updateAt fq a items).length = items.length :=
      updateAt_length fq a items
    refine ⟨?_, ?_, ?_, ?_, ?_, ?_, ?_⟩
    · show countP isPending (setQueued rest (updateAt fq a items)) +
        (rest.length + 1) = countP isPending items
      omega
    · show countP isQueued (setQueued rest (updateAt fq a items)) =
        countP isQueued items + (rest.length + 1)
      omega
    · show countP isSentLike (setQueued rest (updateAt fq a items)) =
        countP isSentLike items
      omega
    · show countP isFailed (setQueued rest (updateAt fq a items)) =
        countP isFailed items
      omega
    · show countP isDelivered (setQueued rest (updateAt fq a items)) =
        countP isDelivered items
      omega
    · show countP isRead (setQueued rest (updateAt fq a items)) =
        countP isRead items
      omega
    · show (setQueued rest (updateAt fq a items)).length = items.length
      omega

theorem setQueued_itemsOk (idxs : List Nat) (items : List CampaignItem)
    (hnd : idxs.Nodup)
    (hp : ∀ i ∈ idxs, ∃ it, items[i]? = some it ∧ isPending it = true)
    (hI : itemsOk items) : itemsOk (setQueued idxs items) := by
  intro j jt hj hmid
  by_cases hjm : j ∈ idxs
  · rw [setQueued_get?_mem idxs items j hnd hjm] at hj
    obtain ⟨it, hget, hpit⟩ := hp j hjm
    rw [hget] at hj
    simp at hj
    have hmn : it.messageId = none := by
      by_contra hne
      have := hI j it hget hne
      simp [isPending, decide_eq_true_eq] at hpit
      simp [isSentLike, decide_eq_true_eq, hpit] at this
    rw [← hj] at hmid
    simp [hmn] at hmid
  · rw [setQueued_get?_notmem idxs items j hjm] at hj
    exact hI j jt hj hmid

/-! ### Properties of the claimed-index list -/

theorem pendingIdxs_mem (items : List CampaignItem) (n : Nat) :
    ∀ i ∈ pendingIdxs items n,
      ∃ it, items[i]? = some it ∧ isPending it = true := by
  intro i hi
  have hi2 := List.take_subset n _ hi
  have := List.mem_filter.mp hi2
  rcases hit : items[i]? with _ | it
  · rw [hit] at this
    simp at this
  · rw [hit] at this
    exact ⟨it, rfl, this.2⟩

theorem pendingIdxs_nodup (items : List CampaignItem) (n : Nat) :
    (pendingIdxs items n).Nodup :=
  ((List.nodup_range _).filter _).sublist (List.take_sublist _ _)

theorem pendingIdxs_nil (items : List CampaignItem)
    (h : pendingIdxs items 10 = []) : countP isPending items = 0 := by
  unfold pendingIdxs at h
  rcases List.take_eq_nil_iff.mp h with h10 | hfil
  · omega
  · rw [countP_eq_zero]
    intro it hmem
    obtain ⟨i, hi, hget⟩ := List.mem_iff_getElem.mp hmem
    by_contra hpit
    have hmemr : i ∈ (List.range items.length).filter (fun i =>
        match items[i]? with
        | some it => isPending it
        | none => false) := by
      rw [List.mem_filter]
      refine ⟨List.mem_range.mpr hi, ?_⟩
      have : items[i]? = some it := by
        rw [List.getElem?_eq_getElem hi, hget]
      rw [this]
      simpa using hpit
    rw [hfil] at hmemr
    simp at hmemr

/-! ### Properties of the batch loop -/

theorem queued_not_others (it : CampaignItem) (hq : isQueued it = true) :
    isPending it = false ∧ isSentLike it = false ∧ isFailed it = false ∧
    isDelivered it = false ∧ isRead it = false := by
  simp [isQueued, decide_eq_true_eq] at hq
  simp [isPending, isSentLike, isFailed, isDelivered, isRead, hq]

theorem sendItemStep_spec (i : Nat) (oc : SendOutcome) (s : SysState)
    (it : CampaignItem) (hget : s.items[i]? = some it)
    (hq : isQueued it = true) (hC : countersOk s) (hI : itemsOk s.items) :
    countersOk (sendItemStep i oc s) ∧
    itemsOk (sendItemStep i oc s).items ∧
    (sendItemStep i oc s).campaign.status = s.campaign.status ∧
    (sendItemStep i oc s).logs = s.logs ∧
    (sendItemStep i oc s).items.length = s.items.length ∧
    countP isPending (sendItemStep i oc s).items = countP isPending s.items ∧
    (countP isQueued (sendItemStep i oc s).items + 1 =
      countP isQueued s.items) ∧
    (sendItemStep i oc s).campaign.messagesDelivered =
      s.campaign.messagesDelivered ∧
    (sendItemStep i oc s).campaign.messagesRead = s.campaign.messagesRead ∧
    countP isDelivered (sendItemStep i oc s).items =
      countP isDelivered s.items ∧
    countP isRead (sendItemStep i oc s).items = countP isRead s.items ∧
    (∀ j, i ≠ j → (sendItemStep i oc s).items[j]? = s.items[j]?) := by
  obtain ⟨hTot, hSent, hFail⟩ := hC
  obtain ⟨hnp, hns, hnf, hnd, hnr⟩ := queued_not_others it hq
  have hmn : it.messageId = none := by
    by_contra hne
    have := hI i it hget hne
    rw [this] at hns
    exact absurd hns (by simp)
  have hff : (false = true) = False := by simp
  have htt : (true = true) = True := by simp
  cases oc with
  | sendOk mid =>
    unfold sendItemStep
    dsimp only
    set f : CampaignItem → CampaignItem := fun x => { x with
      status := ItemStatus.sent, sentAt := some s.clock,
      messageId := if mid.getD "" ≠ "" then some (mid.getD "")
                   else x.messageId } with hf
    have hcount := fun (p : CampaignItem → Bool) =>
      countP_updateAt p f i s.items it hget
    have hfP : isPending (f it) = false := by simp [hf, isPending]
    have hfQ : isQueued (f it) = false := by simp [hf, isQueued]
    have hfS : isSentLike (f it) = true := by simp [hf, isSentLike]
    have hfF : isFailed (f it) = false := by simp [hf, isFailed]
    have hfD : isDelivered (f it) = false := by simp [hf, isDelivered]
    have hfR : isRead (f it) = false := by simp [hf, isRead]
    have hlen := updateAt_length f i s.items
    have h1 := hcount isPending
    have h2 := hcount isQueued
    have h3 := hcount isSentLike
    have h4 := hcount isFailed
    have h5 := hcount isDelivered
    have h6 := hcount isRead
    rw [hnp, hfP] at h1
    rw [hq, hfQ] at h2
    rw [hns, hfS] at h3
    rw [hnf, hfF] at h4
    rw [hnd, hfD] at h5
    rw [hnr, hfR] at h6
    simp only [hff, htt, if_true, if_false] at h1 h2 h3 h4 h5 h6
    refine ⟨⟨?_, ?_, ?_⟩, ?_, rfl, rfl, ?_, ?_, ?_, rfl, rfl, ?_, ?_, ?_⟩
    · dsimp only; omega
    · dsimp only; omega
    · dsimp only; omega
    · intro j jt hj hmid
      rw [updateAt_get?] at hj
      by_cases hij : i = j
      · rw [if_pos hij, ← hij, hget] at hj
        have hj2 : f it = jt := by simpa using hj
        exact hj2 ▸ hfS
      · rw [if_neg hij] at hj
        exact hI j jt hj hmid
    · dsimp only; omega
    · dsimp only; omega
    · dsimp only; omega
    · dsimp only; omega
    · dsimp only; omega
    · intro j hij
      rw [updateAt_get?, if_neg hij]
  | sendErr e =>
    unfold sendItemStep
    dsimp only
    set f : CampaignItem → CampaignItem := fun x => { x with
      status := ItemStatus.failedSt, errorMessage := e } with hf
    have hcount := fun (p : CampaignItem → Bool) =>
      countP_updateAt p f i s.items it hget
    have hfP : isPending (f it) = false := by simp [hf, isPending]
    have hfQ : isQueued (f it) = false := by simp [hf, isQueued]
    have hfS : isSentLike (f it) = false := by simp [hf, isSentLike]
    have hfF : isFailed (f it) = true := by simp [hf, isFailed]
    have hfD : isDelivered (f it) = false := by simp [hf, isDelivered]
    have hfR : isRead (f it) = false := by simp [hf, isRead]
    have hlen := updateAt_length f i s.items
    have h1 := hcount isPending
    have h2 := hcount isQueued
    have h3 := hcount isSentLike
    have h4 := hcount isFailed
    have h5 := hcount isDelivered
    have h6 := hcount isRead
    rw [hnp, hfP] at h1
    rw [hq, hfQ] at h2
    rw [hns, hfS] at h3
    rw [hnf, hfF] at h4
    rw [hnd, hfD] at h5
    rw [hnr, hfR] at h6
    simp only [hff, htt, if_true, if_false] at h1 h2 h3 h4 h5 h6
    refine ⟨⟨?_, ?_, ?_⟩, ?_, rfl, rfl, ?_, ?_, ?_, rfl, rfl, ?_, ?_, ?_⟩
    · dsimp only; omega
    · dsimp only; omega
    · dsimp only; omega
    · intro j jt hj hmid
      rw [updateAt_get?] at hj
      by_cases hij : i = j
      · rw [if_pos hij, ← hij, hget] at hj
        have hj2 : f it = jt := by simpa using hj
        have : jt.messageId = none := by
          rw [← hj2]
          simpa [hf] using hmn
        rw [this] at hmid
        exact absurd rfl hmid
      · rw [if_neg hij] at hj
        exact hI j jt hj hmid
    · dsimp only; omega
    · dsimp only; omega
    · dsimp only; omega
    · dsimp only; omega
    · dsimp only; omega
    · intro j hij
      rw [updateAt_get?, if_neg hij]

theorem batchLoop_cons (oc : Nat → SendOutcome) (pauseAt : Option Nat)
    (a : Nat) (rest2 : List Nat) (j : Nat) (s : SysState) :
    batchLoop oc pauseAt (a :: rest2) j s =
      if (if pauseAt = some j then pause_campaign s else s).campaign.status =
          CampaignStatus.running then
        batchLoop oc pauseAt rest2 (j + 1)
          (sendItemStep a (oc j)
            (if pauseAt = some j then pause_campaign s else s))
      else (if pauseAt = some j then pause_campaign s else s) := rfl

theorem pause_campaign_run (s : SysState)
    (h : s.campaign.status = CampaignStatus.running) :
    pause_campaign s =
      { s with campaign := { s.campaign with
          status := CampaignStatus.paused } } := by
  unfold pause_campaign
  rw [if_pos h]

/-- Master lemma for the batch loop: it preserves the counter bookkeeping,
leaves PENDING rows and the delivered/read ledger alone, only ever moves the
campaign between RUNNING and PAUSED, and — when no pause lands — consumes
exactly the claimed QUEUED rows. -/
theorem batchLoop_spec (oc : Nat → SendOutcome) (pauseAt : Option Nat) :
    ∀ (rest : List Nat) (j : Nat) (s : SysState),
      s.campaign.status = CampaignStatus.running →
      rest.Nodup →
      (∀ i ∈ rest, ∃ it, s.items[i]? = some it ∧ isQueued it = true) →
      countersOk s → itemsOk s.items →
      countersOk (batchLoop oc pauseAt rest j s) ∧
      itemsOk (batchLoop oc pauseAt rest j s).items ∧
      ((batchLoop oc pauseAt rest j s).campaign.status =
          CampaignStatus.running ∨
        (batchLoop oc pauseAt rest j s).campaign.status =
          CampaignStatus.paused) ∧
      (batchLoop oc pauseAt rest j s).logs = s.logs ∧
      (batchLoop oc pauseAt rest j s).items.length = s.items.length ∧
      countP isPending (batchLoop oc pauseAt rest j s).items =
        countP isPending s.items ∧
      (batchLoop oc pauseAt rest j s).campaign.messagesDelivered =
        s.campaign.messagesDelivered ∧
      (batchLoop oc pauseAt rest j s).campaign.messagesRead =
        s.campaign.messagesRead ∧
      countP isDelivered (batchLoop oc pauseAt rest j s).items =
        countP isDelivered s.items ∧
      countP isRead (batchLoop oc pauseAt rest j s).items =
        countP isRead s.items ∧
      (pauseAt = none →
        (batchLoop oc pauseAt rest j s).campaign.status =
          CampaignStatus.running ∧
        countP isQueued (batchLoop oc pauseAt rest j s).items +
          rest.length = countP isQueued s.items) := by
  intro rest
  induction rest with
  | nil =>
    intro j s hrun _ _ hC hI
    exact ⟨hC, hI, Or.inl hrun, rfl, rfl, rfl, rfl, rfl, rfl, rfl,
      fun _ => ⟨hrun, by simp [batchLoop]⟩⟩
  | cons a rest2 ih =>
    intro j s hrun hnd hq hC hI
    by_cases hpj : pauseAt = some j
    · have hps := pause_campaign_run s hrun
      have hstat : (pause_campaign s).campaign.status =
          CampaignStatus.paused := by rw [hps]
      have hcond : ¬ ((if pauseAt = some j then pause_campaign s
          else s).campaign.status = CampaignStatus.running) := by
        rw [if_pos hpj, hstat]
        simp
      have hres : batchLoop oc pauseAt (a :: rest2) j s =
          pause_campaign s := by
        rw [batchLoop_cons, if_neg hcond, if_pos hpj]
      rw [hres, hps]
      refine ⟨hC, hI, Or.inr rfl, rfl, rfl, rfl, rfl, rfl, rfl, rfl, ?_⟩
      intro hnone
      rw [hnone] at hpj
      exact absurd hpj (by simp)
    · have hcond : (if pauseAt = some j then pause_campaign s
          else s).campaign.status = CampaignStatus.running := by
        rw [if_neg hpj]
        exact hrun
      have hres : batchLoop oc pauseAt (a :: rest2) j s =
          batchLoop oc pauseAt rest2 (j + 1) (sendItemStep a (oc j) s) := by
        rw [batchLoop_cons, if_pos hcond, if_neg hpj]
      obtain ⟨it, hget, hqit⟩ := hq a (by simp)
      obtain ⟨sC, sI, sSt, sL, sLen, sP, sQ, sD, sR, sCD, sCR, sPW⟩ :=
        sendItemStep_spec a (oc j) s it hget hqit hC hI
      have hrun1 : (sendItemStep a (oc j) s).campaign.status =
          CampaignStatus.running := by rw [sSt]; exact hrun
      have hq1 : ∀ i ∈ rest2, ∃ jt,
          (sendItemStep a (oc j) s).items[i]? = some jt ∧
          isQueued jt = true := by
        intro i hi
        have hai : a ≠ i := by
          rintro rfl
          exact (List.nodup_cons.mp hnd).1 hi
        obtain ⟨jt, hjt, hqjt⟩ := hq i (by simp [hi])
        exact ⟨jt, by rw [sPW i hai]; exact hjt, hqjt⟩
      obtain ⟨rC, rI, rSt, rL, rLen, rP, rD, rR, rCD, rCR, rPause⟩ :=
        ih (j + 1) (sendItemStep a (oc j) s) hrun1
          (List.nodup_cons.mp hnd).2 hq1 sC sI
      rw [hres]
      refine ⟨rC, rI, rSt, ?_, ?_, ?_, ?_, ?_, ?_, ?_, ?_⟩
      · rw [rL]; exact sL
      · rw [rLen]; exact sLen
      · rw [rP]; exact sP
      · rw [rD]; exact sD
      · rw [rR]; exact sR
      · rw [rCD]; exact sCD
      · rw [rCR]; exact sCR
      · intro hnone
        obtain ⟨hst, hcq⟩ := rPause hnone
        refine ⟨hst, ?_⟩
        have := sQ
        simp only [List.length_cons]
        omega

theorem markCompleted_frame (s : SysState) :
    (markCompleted s).campaign.status = CampaignStatus.completed ∧
    (markCompleted s).items = s.items ∧
    (markCompleted s).logs = s.logs ∧
    (markCompleted s).campaign.totalRecipients =
      s.campaign.totalRecipients ∧
    (markCompleted s).campaign.messagesSent = s.campaign.messagesSent ∧
    (markCompleted s).campaign.messagesFailed = s.campaign.messagesFailed ∧
    (markCompleted s).campaign.messagesDelivered =
      s.campaign.messagesDelivered ∧
    (markCompleted s).campaign.messagesRead = s.campaign.messagesRead :=
  ⟨rfl, rfl, rfl, rfl, rfl, rfl, rfl, rfl⟩

theorem markCompleted_invA (s : SysState) (hA : invA s) :
    invA (markCompleted s) := by
  obtain ⟨⟨hTot, hSent, hFail⟩, hItems, _, hLogs⟩ := hA
  exact ⟨⟨hTot, hSent, hFail⟩, hItems,
    by intro hd; simp [markCompleted] at hd, hLogs⟩

/-- Master lemma for one scheduler activation: `invA` is preserved, the
delivered/read ledger is untouched, and — when no pause lands mid-batch —
a state with no QUEUED rows keeps having none, and a COMPLETED result has no
PENDING rows. -/
theorem process_campaign_batch_inv (oc : Nat → SendOutcome)
    (pauseAt : Option Nat) (s : SysState) (hA : invA s) :
    invA (process_campaign_batch oc pauseAt s) ∧
    (process_campaign_batch oc pauseAt s).campaign.messagesDelivered =
      s.campaign.messagesDelivered ∧
    (process_campaign_batch oc pauseAt s).campaign.messagesRead =
      s.campaign.messagesRead ∧
    countP isDelivered (process_campaign_batch oc pauseAt s).items =
      countP isDelivered s.items ∧
    countP isRead (process_campaign_batch oc pauseAt s).items =
      countP isRead s.items ∧
    (pauseAt = none → countP isQueued s.items = 0 →
      (s.campaign.status = CampaignStatus.completed →
        countP isPending s.items = 0) →
      countP isQueued (process_campaign_batch oc pauseAt s).items = 0 ∧
      ((process_campaign_batch oc pauseAt s).campaign.status =
          CampaignStatus.completed →
        countP isPending (process_campaign_batch oc pauseAt s).items = 0)) := by
  unfold process_campaign_batch
  split_ifs with hrun hnil hzero
  · -- running, nothing claimable, no pending at all: complete
    refine ⟨markCompleted_invA s hA, rfl, rfl, rfl, rfl, ?_⟩
    intro _ hq0 _
    exact ⟨hq0, fun _ => hzero⟩
  · -- running, nothing claimable, pending rows locked elsewhere: re-arm
    refine ⟨hA, rfl, rfl, rfl, rfl, ?_⟩
    intro _ hq0 _
    refine ⟨hq0, fun hc => ?_⟩
    rw [hc] at hrun
    simp at hrun
  · -- running with a claimed batch
    have hmem := pendingIdxs_mem s.items 10
    have hnd := pendingIdxs_nodup s.items 10
    obtain ⟨cP, cQ, cS, cF, cD, cR, cLen⟩ :=
      setQueued_counts (pendingIdxs s.items 10) s.items hnd hmem
    set s1 : SysState :=
      { s with items := setQueued (pendingIdxs s.items 10) s.items } with hs1
    have hC1 : countersOk s1 := by
      obtain ⟨hTot, hSent, hFail⟩ := hA.1
      exact ⟨by dsimp only [hs1]; omega, by dsimp only [hs1]; omega,
        by dsimp only [hs1]; omega⟩
    have hI1 : itemsOk s1.items :=
      setQueued_itemsOk (pendingIdxs s.items 10) s.items hnd hmem hA.2.1
    have hrun1 : s1.campaign.status = CampaignStatus.running := hrun
    have hq1 : ∀ i ∈ pendingIdxs s.items 10,
        ∃ it, s1.items[i]? = some it ∧ isQueued it = true := by
      intro i hi
      obtain ⟨it, hget, _⟩ := hmem i hi
      refine ⟨{ it with status := ItemStatus.queued }, ?_, by simp [isQueued]⟩
      show (setQueued (pendingIdxs s.items 10) s.items)[i]? = _
      rw [setQueued_get?_mem _ _ i hnd hi, hget]
      rfl
    obtain ⟨rC, rI, rSt, rL, rLen, rP, rD, rR, rCD, rCR, rPause⟩ :=
      batchLoop_spec oc pauseAt (pendingIdxs s.items 10) 0 s1 hrun1 hnd hq1
        hC1 hI1
    set s2 : SysState :=
      batchLoop oc pauseAt (pendingIdxs s.items 10) 0 s1 with hs2
    have hA2 : invA s2 := by
      refine ⟨rC, rI, ?_, ?_⟩
      · intro hd
        rcases rSt with h | h <;> rw [hd] at h <;> simp at h
      · intro l hl
        rw [rL] at hl
        exact hA.2.2.2 l hl
    have hD2 : s2.campaign.messagesDelivered =
        s.campaign.messagesDelivered := rD
    have hR2 : s2.campaign.messagesRead = s.campaign.messagesRead := rR
    have hCD2 : countP isDelivered s2.items = countP isDelivered s.items := by
      rw [rCD]; exact cD
    have hCR2 : countP isRead s2.items = countP isRead s.items := by
      rw [rCR]; exact cR
    unfold batchTail
    split_ifs with hpend
    · refine ⟨hA2, hD2, hR2, hCD2, hCR2, ?_⟩
      intro hnone hq0 _
      obtain ⟨hst2, hq2⟩ := rPause hnone
      constructor
      · have : countP isQueued s1.items =
            countP isQueued s.items + (pendingIdxs s.items 10).length := cQ
        omega
      · intro hc
        rw [hc] at hst2
        simp at hst2
    · refine ⟨markCompleted_invA s2 hA2, hD2, hR2, hCD2, hCR2, ?_⟩
      intro hnone hq0 _
      obtain ⟨hst2, hq2⟩ := rPause hnone
      constructor
      · show countP isQueued s2.items = 0
        have : countP isQueued s1.items =
            countP isQueued s.items + (pendingIdxs s.items 10).length := cQ
        omega
      · intro _
        show countP isPending s2.items = 0
        omega
  · -- not RUNNING: silent exit
    exact ⟨hA, rfl, rfl, rfl, rfl, fun _ hq0 hcp => ⟨hq0, hcp⟩⟩

theorem populate_recipients_items (t : TenantData) (c : Campaign)
    (newItems : List CampaignItem)
    (h : populate_recipients t c = Except.ok newItems) :
    ∀ it ∈ newItems, it.status = ItemStatus.pending ∧ it.messageId = none := by
  unfold populate_recipients at h
  split_ifs at h
  · simp only [Except.ok.injEq] at h
    intro it hit
    rw [← h] at hit
    obtain ⟨kv, _, hkv⟩ := List.mem_map.mp hit
    rw [← hkv]
    exact ⟨rfl, rfl⟩

/-- One `start` request preserves `invA` and all reconciliation-side ledgers;
the result is either the unchanged state or a RUNNING campaign. -/
theorem startRequest_inv (t : TenantData) (s : SysState) (hA : invA s) :
    invA (startRequest t s) ∧
    (startRequest t s).campaign.messagesDelivered =
      s.campaign.messagesDelivered ∧
    (startRequest t s).campaign.messagesRead = s.campaign.messagesRead ∧
    countP isDelivered (startRequest t s).items =
      countP isDelivered s.items ∧
    countP isRead (startRequest t s).items = countP isRead s.items ∧
    countP isQueued (startRequest t s).items = countP isQueued s.items ∧
    (startRequest t s = s ∨
      (startRequest t s).campaign.status = CampaignStatus.running) ∧
    (startRequest t s).logs = s.logs := by
  obtain ⟨⟨hTot, hSent, hFail⟩, hItems, hDraft, hLogs⟩ := hA
  unfold startRequest
  split_ifs with hgate
  · unfold start_campaign
    split_ifs with hrunning hisdraft
    · exact ⟨⟨⟨hTot, hSent, hFail⟩, hItems, hDraft, hLogs⟩, rfl, rfl, rfl,
        rfl, rfl, Or.inl rfl, rfl⟩
    · -- DRAFT: populate, then set RUNNING
      rcases hpop : populate_recipients t s.campaign with e | newItems
      · exact ⟨⟨⟨hTot, hSent, hFail⟩, hItems, hDraft, hLogs⟩, rfl, rfl, rfl,
          rfl, rfl, Or.inl rfl, rfl⟩
      · have hnil : s.items = [] := hDraft hisdraft
        have hnew := populate_recipients_items t s.campaign newItems hpop
        have hempty : ∀ (p : CampaignItem → Bool),
            (∀ it, it.status = ItemStatus.pending → p it = false) →
            countP p (s.items ++ newItems) = 0 := by
          intro p hp
          rw [countP_append, (countP_eq_zero p s.items).mpr
            (fun x hx => by rw [hnil] at hx; simp at hx)]
          rw [(countP_eq_zero p newItems).mpr
            (fun x hx => hp x (hnew x hx).1)]
        refine ⟨⟨⟨?_, ?_, ?_⟩, ?_, ?_, ?_⟩, rfl, rfl, ?_, ?_, ?_,
          Or.inr rfl, rfl⟩
        · show newItems.length = (s.items ++ newItems).length
          rw [List.length_append, hnil]
          simp
        · show s.campaign.messagesSent =
            countP isSentLike (s.items ++ newItems)
          rw [hempty isSentLike (fun it h => by simp [isSentLike, h]), hSent,
            hnil]
          rfl
        · show s.campaign.messagesFailed =
            countP isFailed (s.items ++ newItems)
          rw [hempty isFailed (fun it h => by simp [isFailed, h]), hFail, hnil]
          rfl
        · intro j jt hj hmid
          rcases List.mem_append.mp (mem_of_get? hj) with h | h
          · rw [hnil] at h
            simp at h
          · exact absurd (hnew jt h).2 hmid
        · intro hd
          simp [startFinish] at hd
        · exact hLogs
        · show countP isDelivered (s.items ++ newItems) =
            countP isDelivered s.items
          rw [hempty isDelivered (fun it h => by simp [isDelivered, h]), hnil]
          rfl
        · show countP isRead (s.items ++ newItems) = countP isRead s.items
          rw [hempty isRead (fun it h => by simp [isRead, h]), hnil]
          rfl
        · show countP isQueued (s.items ++ newItems) = countP isQueued s.items
          rw [hempty isQueued (fun it h => by simp [isQueued, h]), hnil]
          rfl
    · -- PAUSED / FAILED restart: only status and started_at move
      refine ⟨⟨⟨hTot, hSent, hFail⟩, hItems, ?_, hLogs⟩,
        rfl, rfl, rfl, rfl, rfl, Or.inr rfl, rfl⟩
      intro hd
      simp [startFinish] at hd
  · exact ⟨⟨⟨hTot, hSent, hFail⟩, hItems, hDraft, hLogs⟩, rfl, rfl, rfl, rfl,
      rfl, Or.inl rfl, rfl⟩

/-! ### The three inductive invariants and the trace induction -/

/-- `invA` plus: no row is parked in QUEUED, and a COMPLETED campaign has no
PENDING rows.  Inductive only when no pause interferes. -/
def invB (s : SysState) : Prop :=
  invA s ∧ countP isQueued s.items = 0 ∧
  (s.campaign.status = CampaignStatus.completed →
    countP isPending s.items = 0)

/-- `invA` plus: the reconciliation-side ledgers are untouched.  Inductive
for scheduler-only traces. -/
def invC (s : SysState) : Prop :=
  invA s ∧ s.campaign.messagesDelivered = 0 ∧ s.campaign.messagesRead = 0 ∧
  countP isDelivered s.items = 0 ∧ countP isRead s.items = 0

/-- The event is not the ingestion of a send-failure (`FAILED`) message
update. -/
def benignEv : Ev → Prop
  | Ev.evReceive _ p => strUpper p.dataStatus ≠ "FAILED"
  | _ => True

/-- No pause touches the campaign, neither between batches nor mid-batch. -/
def noPauseEv : Ev → Prop
  | Ev.evPause => False
  | Ev.evBatch _ pauseAt => pauseAt = none
  | _ => True

/-- Only lifecycle and scheduler events: no webhook traffic at all. -/
def schedOnlyEv : Ev → Prop
  | Ev.evReceive _ _ => False
  | Ev.evRun _ => False
  | _ => True

theorem pause_campaign_counters (s : SysState) :
    (pause_campaign s).campaign.messagesDelivered =
      s.campaign.messagesDelivered ∧
    (pause_campaign s).campaign.messagesRead = s.campaign.messagesRead := by
  unfold pause_campaign
  split_ifs <;> exact ⟨rfl, rfl⟩

theorem stepEv_invA (e : Ev) (s : SysState) (hb : benignEv e) (hA : invA s) :
    invA (stepEv e s) := by
  cases e with
  | evStart t => exact (startRequest_inv t s hA).1
  | evPause => exact (pause_campaign_inv s hA).1
  | evBatch oc pauseAt => exact (process_campaign_batch_inv oc pauseAt s hA).1
  | evReceive eventType p => exact (webhookReceive_inv eventType p s hb hA).1
  | evRun logId => exact (process_webhook_inv s logId hA).1

theorem stepEv_invB (e : Ev) (s : SysState) (hb : benignEv e)
    (hnp : noPauseEv e) (hB : invB s) : invB (stepEv e s) := by
  obtain ⟨hA, hq0, hcp⟩ := hB
  cases e with
  | evStart t =>
    show invB (startRequest t s)
    obtain ⟨rA, _, _, _, _, rQ, rAlt, _⟩ := startRequest_inv t s hA
    refine ⟨rA, by rw [rQ]; exact hq0, ?_⟩
    rcases rAlt with h | h
    · rw [h]
      exact hcp
    · intro hc
      rw [hc] at h
      simp at h
  | evPause => exact absurd hnp (by simp [noPauseEv])
  | evBatch oc pauseAt =>
    show invB (process_campaign_batch oc pauseAt s)
    have hnone : pauseAt = none := hnp
    obtain ⟨rA, _, _, _, _, rCond⟩ := process_campaign_batch_inv oc pauseAt s hA
    obtain ⟨h1, h2⟩ := rCond hnone hq0 hcp
    exact ⟨rA, h1, h2⟩
  | evReceive eventType p =>
    show invB (webhookReceive eventType p s)
    obtain ⟨rA, rC, rI⟩ := webhookReceive_inv eventType p s hb hA
    refine ⟨rA, by rw [rI]; exact hq0, ?_⟩
    intro hc
    rw [rI]
    exact hcp (by rw [← rC]; exact hc)
  | evRun logId =>
    show invB (process_webhook s logId)
    obtain ⟨rA, rSt, rP, rQ⟩ := process_webhook_inv s logId hA
    refine ⟨rA, by rw [rQ]; exact hq0, ?_⟩
    intro hc
    rw [rP]
    exact hcp (by rw [← rSt]; exact hc)

theorem stepEv_invC (e : Ev) (s : SysState) (hs : schedOnlyEv e)
    (hC : invC s) : invC (stepEv e s) := by
  obtain ⟨hA, hd, hr, hcd, hcr⟩ := hC
  cases e with
  | evStart t =>
    show invC (startRequest t s)
    obtain ⟨rA, rD, rR, rCD, rCR, _, _, _⟩ := startRequest_inv t s hA
    exact ⟨rA, by rw [rD]; exact hd, by rw [rR]; exact hr,
      by rw [rCD]; exact hcd, by rw [rCR]; exact hcr⟩
  | evPause =>
    show invC (pause_campaign s)
    obtain ⟨rA, rI, _⟩ := pause_campaign_inv s hA
    obtain ⟨pD, pR⟩ := pause_campaign_counters s
    exact ⟨rA, by rw [pD]; exact hd, by rw [pR]; exact hr,
      by rw [rI]; exact hcd, by rw [rI]; exact hcr⟩
  | evBatch oc pauseAt =>
    show invC (process_campaign_batch oc pauseAt s)
    obtain ⟨rA, rD, rR, rCD, rCR, _⟩ := process_campaign_batch_inv oc pauseAt s hA
    exact ⟨rA, by rw [rD]; exact hd, by rw [rR]; exact hr,
      by rw [rCD]; exact hcd, by rw [rCR]; exact hcr⟩
  | evReceive eventType p => exact absurd hs (by simp [schedOnlyEv])
  | evRun logId => exact absurd hs (by simp [schedOnlyEv])

theorem foldl_invA :
    ∀ (tr : List Ev) (s : SysState), invA s → (∀ e ∈ tr, benignEv e) →
      invA (tr.foldl (fun s e => stepEv e s) s) := by
  intro tr
  induction tr with
  | nil => intro s hA _; exact hA
  | cons e tr2 ih =>
    intro s hA hb
    exact ih _ (stepEv_invA e s (hb e (by simp)) hA)
      (fun x hx => hb x (by simp [hx]))

theorem foldl_invB :
    ∀ (tr : List Ev) (s : SysState), invB s →
      (∀ e ∈ tr, benignEv e) → (∀ e ∈ tr, noPauseEv e) →
      invB (tr.foldl (fun s e => stepEv e s) s) := by
  intro tr
  induction tr with
  | nil => intro s hB _ _; exact hB
  | cons e tr2 ih =>
    intro s hB hb hnp
    exact ih _ (stepEv_invB e s (hb e (by simp)) (hnp e (by simp)) hB)
      (fun x hx => hb x (by simp [hx])) (fun x hx => hnp x (by simp [hx]))

theorem foldl_invC :
    ∀ (tr : List Ev) (s : SysState), invC s → (∀ e ∈ tr, schedOnlyEv e) →
      invC (tr.foldl (fun s e => stepEv e s) s) := by
  intro tr
  induction tr with
  | nil => intro s hC _; exact hC
  | cons e tr2 ih =>
    intro s hC hs
    exact ih _ (stepEv_invC e s (hs e (by simp)) hC)
      (fun x hx => hs x (by simp [hx]))

theorem initState_invA (msg : String) (tags : List Nat)
    (groups : List String) (sess : SessionRec) :
    invA (initState (draftCampaign msg tags groups) sess) := by
  refine ⟨⟨rfl, rfl, rfl⟩, ?_, fun _ => rfl, ?_⟩
  · intro i it hget _
    cases i <;> simp [initState] at hget
  · intro l hl
    simp [initState] at hl

theorem runTrace_invA (msg : String) (tags : List Nat)
    (groups : List String) (sess : SessionRec) (tr : List Ev)
    (hb : ∀ e ∈ tr, benignEv e) :
    invA (runTrace (draftCampaign msg tags groups) sess tr) :=
  foldl_invA tr _ (initState_invA msg tags groups sess) hb

theorem runTrace_invB (msg : String) (tags : List Nat)
    (groups : List String) (sess : SessionRec) (tr : List Ev)
    (hb : ∀ e ∈ tr, benignEv e) (hnp : ∀ e ∈ tr, noPauseEv e) :
    invB (runTrace (draftCampaign msg tags groups) sess tr) :=
  foldl_invB tr _
    ⟨initState_invA msg tags groups sess, rfl, fun _ => rfl⟩ hb hnp

theorem runTrace_invC (msg : String) (tags : List Nat)
    (groups : List String) (sess : SessionRec) (tr : List Ev)
    (hs : ∀ e ∈ tr, schedOnlyEv e) :
    invC (runTrace (draftCampaign msg tags groups) sess tr) :=
  foldl_invC tr _
    ⟨initState_invA msg tags groups sess, rfl, rfl, rfl, rfl⟩ hs

/-! ### Phone normalization facts (claim C9) -/

theorem all_filter_self {α : Type} (p : α → Bool) :
    ∀ l : List α, (l.filter p).all p = true := by
  intro l
  induction l with
  | nil => rfl
  | cons x xs ih =>
    by_cases h : p x <;> simp [List.filter, h, ih]

theorem all_drop {α : Type} (p : α → Bool) :
    ∀ (n : Nat) (l : List α), l.all p = true → (l.drop n).all p = true := by
  intro n
  induction n with
  | zero => intro l h; exact h
  | succ m ih =>
    intro l h
    cases l with
    | nil => rfl
    | cons x xs =>
      simp at h
      simpa [List.drop] using ih xs (by simp; exact h.2)

theorem stripCC_all_digits (phone : List Char) :
    (stripCC (phoneDigits phone)).all Char.isDigit = true := by
  unfold stripCC
  split_ifs
  · exact all_drop Char.isDigit 2 _ (all_filter_self Char.isDigit phone)
  · exact all_filter_self Char.isDigit phone

/-! ### Further supporting lemmas for the claims -/

theorem sendItemStep_get?_ne (i : Nat) (oc : SendOutcome) (s : SysState)
    (j : Nat) (hij : i ≠ j) :
    (sendItemStep i oc s).items[j]? = s.items[j]? := by
  cases oc <;>
    (unfold sendItemStep; dsimp only; rw [updateAt_get?, if_neg hij])

/-- Once the mid-batch pause (landing before send number `k`) takes effect,
the loop never touches the claimed positions from `k` on. -/
theorem batchLoop_pause_untouched (oc : Nat → SendOutcome) (k : Nat) :
    ∀ (rest : List Nat) (j : Nat) (s : SysState), j ≤ k → rest.Nodup →
      ∀ i ∈ rest.drop (k - j),
        (batchLoop oc (some k) rest j s).items[i]? = s.items[i]? := by
  intro rest
  induction rest with
  | nil => intro j s _ _ i hi; simp at hi
  | cons a rest2 ih =>
    intro j s hjk hnd i hi
    by_cases hkj : k = j
    · -- the pause lands right now: the loop stops before this send
      have hcond : ¬ ((if (some k : Option Nat) = some j then pause_campaign s
          else s).campaign.status = CampaignStatus.running) := by
        rw [if_pos (by rw [hkj])]
        unfold pause_campaign
        split_ifs with h
        · simp
        · exact h
      rw [batchLoop_cons, if_neg hcond, if_pos (by rw [hkj])]
      unfold pause_campaign
      split_ifs <;> rfl
    · have hjk2 : j < k := lt_of_le_of_ne hjk (fun h => hkj h.symm)
      have hpj : ¬ ((some k : Option Nat) = some j) := by
        simp
        exact hkj
      have hdrop : (a :: rest2).drop (k - j) = rest2.drop (k - (j + 1)) := by
        have : k - j = (k - (j + 1)) + 1 := by omega
        rw [this, List.drop_succ_cons]
      rw [hdrop] at hi
      have hir : i ∈ rest2 := List.drop_subset _ _ hi
      have hai : a ≠ i := by
        rintro rfl
        exact (List.nodup_cons.mp hnd).1 hir
      rw [batchLoop_cons, if_neg hpj]
      split_ifs with hrun
      · rw [ih (j + 1) (sendItemStep a (oc j) s) (by omega)
          (List.nodup_cons.mp hnd).2 i hi]
        exact sendItemStep_get?_ne a (oc j) s i hai
      · rfl

theorem batchTail_items (s2 : SysState) : (batchTail s2).items = s2.items := by
  unfold batchTail markCompleted
  split_ifs <;> rfl

theorem countSentLike_split :
    ∀ items : List CampaignItem,
      countP isSentLike items = countP isSentOnly items +
        countP isDelivered items + countP isRead items := by
  intro items
  induction items with
  | nil => simp [countP]
  | cons it items ih =>
    have : (if isSentLike it then 1 else 0) =
        (if isSentOnly it then 1 else 0) + (if isDelivered it then 1 else 0) +
        (if isRead it then 1 else 0) := by
      cases h : it.status <;>
        simp [isSentLike, isSentOnly, isDelivered, isRead, h]
    simp only [countP, ih]
    omega

theorem lookupLog_updateFirst (logId : Nat) (f : WebhookLog → WebhookLog)
    (hid : ∀ l, (f l).id = l.id) :
    ∀ logs : List WebhookLog,
      lookupLog logId (updateFirst (fun l => l.id = logId) f logs) =
        (lookupLog logId logs).map f := by
  intro logs
  induction logs with
  | nil => rfl
  | cons x xs ih =>
    by_cases hx : x.id = logId
    · show lookupLog logId (if (x.id = logId : Bool) then f x :: xs
        else x :: updateFirst _ f xs) = _
      rw [if_pos (by simpa using hx)]
      show (if (f x).id = logId then some (f x) else lookupLog logId xs) = _
      rw [if_pos (by rw [hid x]; exact hx)]
      show _ = (if x.id = logId then some x else lookupLog logId xs).map f
      rw [if_pos hx]
      rfl
    · show lookupLog logId (if (x.id = logId : Bool) then f x :: xs
        else x :: updateFirst _ f xs) = _
      rw [if_neg (by simpa using hx)]
      show (if x.id = logId then some x else
        lookupLog logId (updateFirst _ f xs)) = _
      rw [if_neg hx, ih]
      show _ = (if x.id = logId then some x else lookupLog logId xs).map f
      rw [if_neg hx]

/-! ## The claims -/

/-- C9: every phone number passed to the Gateway Client's send operations
(`send_text_sync` / `send_media_sync`) is normalized before the external
call: the `number` actually transmitted consists of digits only and starts
with the default country code `55`, which is prepended exactly when the
cleaned input lacks it. -/
theorem claim_C9_phone_normalized (phone : List Char) :
    (sendTextNumber phone).all Char.isDigit = true ∧
    startsWith55 (sendTextNumber phone) = true ∧
    (sendMediaNumber phone).all Char.isDigit = true ∧
    startsWith55 (sendMediaNumber phone) = true ∧
    (startsWith55 (phoneDigits phone) = false →
      sendTextNumber phone = '5' :: '5' :: phoneDigits phone ∧
      sendMediaNumber phone = '5' :: '5' :: phoneDigits phone) := by
  have h5 : Char.isDigit '5' = true := rfl
  have hdig : (format_phone phone).all Char.isDigit = true := by
    unfold format_phone
    split_ifs
    · exact stripCC_all_digits phone
    · simp [List.all_cons, h5, stripCC_all_digits phone]
  have hcc : startsWith55 (format_phone phone) = true := by
    unfold format_phone
    split_ifs with h
    · exact h
    · rfl
  have happ : startsWith55 (phoneDigits phone) = false →
      format_phone phone = '5' :: '5' :: phoneDigits phone := by
    intro h0
    have hstrip : stripCC (phoneDigits phone) = phoneDigits phone := by
      unfold stripCC
      rw [if_neg]
      simp [h0]
    unfold format_phone
    rw [hstrip, if_pos (by simp [h0])]
  exact ⟨hdig, hcc, hdig, hcc, fun h0 => ⟨happ h0, happ h0⟩⟩

theorem claim_C9_witness :
    sendTextNumber ("(11) 99999-8888".toList) = "5511999998888".toList ∧
    ((sendTextNumber ("(11) 99999-8888".toList)).all Char.isDigit = true ∧
      startsWith55 (sendTextNumber ("(11) 99999-8888".toList)) = true ∧
      (sendMediaNumber ("(11) 99999-8888".toList)).all Char.isDigit = true ∧
      startsWith55 (sendMediaNumber ("(11) 99999-8888".toList)) = true ∧
      (startsWith55 (phoneDigits ("(11) 99999-8888".toList)) = false →
        sendTextNumber ("(11) 99999-8888".toList) =
          '5' :: '5' :: phoneDigits ("(11) 99999-8888".toList) ∧
        sendMediaNumber ("(11) 99999-8888".toList) =
          '5' :: '5' :: phoneDigits ("(11) 99999-8888".toList))) :=
  ⟨by decide, claim_C9_phone_normalized ("(11) 99999-8888".toList)⟩

/-- C7: a webhook POST whose instance name resolves to no active session in
any active tenant returns 404 and creates no state: the store is unchanged
(no `WebhookLog` row, no session mutation) and nothing is enqueued. -/
theorem claim_C7_unknown_instance (ps : PublicState)
    (instanceName eventType : String) (p : Payload)
    (h : get_session_by_instance_name ps instanceName = none) :
    webhook_post ps instanceName eventType p = (404, ps, []) := by
  unfold webhook_post
  rw [h]

/-- A session provisioned under the name `ghost` in an inactive tenant. -/
def c7GhostSession : SessionRec :=
  ⟨"a", "ghost", true, SessionStatus.connected, true, "", none⟩

/-- The only session of the active tenant, named `other`. -/
def c7OtherSession : SessionRec :=
  ⟨"b", "other", true, SessionStatus.connected, true, "", none⟩

/-- A two-tenant store: an inactive tenant owning a session named `ghost`,
and an active tenant whose only active session is named `other`. -/
def c7Demo : PublicState :=
  ⟨[⟨"t1", false, [c7GhostSession], []⟩,
    ⟨"t2", true, [c7OtherSession], []⟩], 0⟩

theorem claim_C7_witness :
    get_session_by_instance_name c7Demo "ghost" = none ∧
    webhook_post c7Demo "ghost" "messages.update" emptyPayload =
      (404, c7Demo, []) :=
  ⟨by decide, claim_C7_unknown_instance c7Demo "ghost" "messages.update"
    emptyPayload (by decide)⟩

/-- C8: `start` on a campaign that is already RUNNING is a complete no-op:
the service returns before the transaction and before the batch dispatch
(`Bool` = `false`), and the full request (view gate + service) leaves the
state — status, timestamps, counters and items — exactly as it was, creating
no additional `CampaignItem`s. -/
theorem claim_C8_start_running_noop (t : TenantData) (s : SysState)
    (h : s.campaign.status = CampaignStatus.running) :
    start_campaign t s = Except.ok (s, false) ∧ startRequest t s = s := by
  constructor
  · unfold start_campaign
    rw [if_pos h]
  · unfold startRequest
    rw [if_neg]
    rw [h]
    simp

/-- A pending item row for the RUNNING demo campaign. -/
def c8Item : CampaignItem :=
  ⟨some 1, "Ana", "11999998888", ItemStatus.pending, none, "", none, none,
    none⟩

/-- A RUNNING one-recipient campaign mid-dispatch. -/
def c8Running : SysState :=
  { campaign := { draftCampaign "oi" [1] [] with
      status := CampaignStatus.running, totalRecipients := 1,
      startedAt := some 0 },
    items := [c8Item], logs := [], msgs := [], session := someSession,
    clock := 0 }

def c8Tenant : TenantData :=
  { tags := [⟨1, "vip", false⟩],
    supporters := [⟨1, "Ana", "11999998888", true, [1]⟩], users := [] }

theorem claim_C8_witness :
    start_campaign c8Tenant c8Running = Except.ok (c8Running, false) ∧
    startRequest c8Tenant c8Running = c8Running :=
  claim_C8_start_running_noop c8Tenant c8Running rfl

/-- C6: on a DRAFT campaign, an empty targeting rule makes `start` fail
synchronously with `NoTargetSelected`, and a rule that resolves to zero
eligible (opted-in, phone-bearing) recipients makes it fail with
`NoRecipientsFound`; in both cases the request leaves the state untouched —
the campaign stays DRAFT and no `CampaignItem` is created. -/
theorem claim_C6_targeting_errors (t : TenantData) (s : SysState)
    (h : s.campaign.status = CampaignStatus.draft) :
    (s.campaign.targetTags = [] ∧ s.campaign.targetGroups = [] →
      start_campaign t s = Except.error StartError.noTargetSelected ∧
      startRequest t s = s) ∧
    (¬ (s.campaign.targetTags = [] ∧ s.campaign.targetGroups = []) →
      resolvedRecipients t s.campaign = [] →
      start_campaign t s = Except.error StartError.noRecipientsFound ∧
      startRequest t s = s) := by
  have hnr : ¬ s.campaign.status = CampaignStatus.running := by
    rw [h]; simp
  have hgate : s.campaign.status = CampaignStatus.draft ∨
      s.campaign.status = CampaignStatus.paused ∨
      s.campaign.status = CampaignStatus.failedSt := Or.inl h
  constructor
  · intro hempty
    have hsvc : start_campaign t s =
        Except.error StartError.noTargetSelected := by
      unfold start_campaign
      rw [if_neg hnr, if_pos h]
      unfold populate_recipients
      rw [if_pos hempty]
    refine ⟨hsvc, ?_⟩
    unfold startRequest
    rw [if_pos hgate, hsvc]
  · intro hrule hzero
    have hsvc : start_campaign t s =
        Except.error StartError.noRecipientsFound := by
      unfold start_campaign
      rw [if_neg hnr, if_pos h]
      unfold populate_recipients
      rw [if_neg hrule, if_pos hzero]
    refine ⟨hsvc, ?_⟩
    unfold startRequest
    rw [if_pos hgate, hsvc]

/-- A DRAFT campaign with an empty targeting rule, over an empty partition. -/
def c6EmptyRule : SysState := initState (draftCampaign "oi" [] []) someSession

/-- A DRAFT campaign targeting tag 7 in a tenant whose only supporter has
opted out, so resolution finds nobody. -/
def c6NoMatch : SysState := initState (draftCampaign "oi" [7] []) someSession

def c6Tenant : TenantData :=
  { tags := [⟨7, "vip", false⟩],
    supporters := [⟨1, "Ana", "11999998888", false, [7]⟩], users := [] }

theorem claim_C6_witness :
    (start_campaign c6Tenant c6EmptyRule =
        Except.error StartError.noTargetSelected ∧
      startRequest c6Tenant c6EmptyRule = c6EmptyRule) ∧
    (start_campaign c6Tenant c6NoMatch =
        Except.error StartError.noRecipientsFound ∧
      startRequest c6Tenant c6NoMatch = c6NoMatch) ∧
    c6EmptyRule.items = [] ∧ c6NoMatch.items = [] ∧
    c6EmptyRule.campaign.status = CampaignStatus.draft ∧
    c6NoMatch.campaign.status = CampaignStatus.draft :=
  ⟨(claim_C6_targeting_errors c6Tenant c6EmptyRule rfl).1 ⟨rfl, rfl⟩,
   (claim_C6_targeting_errors c6Tenant c6NoMatch rfl).2 (by decide)
     (by decide),
   rfl, rfl, rfl, rfl⟩

/-- A SENT item whose gateway message id `WAMID1` is stored. -/
def c1Item : CampaignItem :=
  ⟨none, "Ana", "5511999998888", ItemStatus.sent, some "WAMID1", "", some 0,
    none, none⟩

/-- A delivery-ack (`messages.update`, status `DELIVERY_ACK`) payload for
`WAMID1`. -/
def c1Payload : Payload :=
  { emptyPayload with dataKeyId := "WAMID1", dataStatus := "DELIVERY_ACK" }

/-- The stored, not-yet-processed log entry for that delivery ack. -/
def c1Log : WebhookLog := ⟨1, "messages.update", c1Payload, false, none, ""⟩

/-- The tenant state at which the replay happens: one campaign with one sent
item, the ack logged but not yet reconciled. -/
def c1State : SysState :=
  { campaign := { draftCampaign "oi" [] [] with
      status := CampaignStatus.running, totalRecipients := 1,
      messagesSent := 1, startedAt := some 0 },
    items := [c1Item], logs := [c1Log], msgs := [], session := someSession,
    clock := 0 }

/-- C1: reconciliation of a `WebhookLogEntry` is NOT idempotent.  The first
`process_webhook` delivery increments `messages_delivered` and marks the
entry processed, yet the second delivery of the same entry id increments the
counter again to 2 — the task never consults the `processed` flag before
dispatching (webhook_tasks.py lines 24-51 contain no such guard), so the
claimed exactly-once guarantee fails. -/
theorem claim_C1_replay_double_counts :
    (process_webhook c1State 1).campaign.messagesDelivered = 1 ∧
    (lookupLog 1 (process_webhook c1State 1).logs).map WebhookLog.processed =
      some true ∧
    (process_webhook (process_webhook c1State 1) 1).campaign.messagesDelivered
      = 2 :=
  ⟨by decide, by decide, by decide⟩

/-- The stored log entry whose reconciliation will raise. -/
def c10Log : WebhookLog := ⟨1, "messages.update", emptyPayload, false, none, ""⟩

/-- A tenant state holding only that unprocessed entry. -/
def c10State : SysState :=
  { campaign := draftCampaign "oi" [] [], items := [], logs := [c10Log],
    msgs := [], session := someSession, clock := 0 }

/-- A `try`-block body that raises `boom` without touching the state, as the
source's handlers can (database errors, malformed payload shapes). -/
def c10Failing : WebhookLog → SysState → Option String × SysState :=
  fun _ s => (some "boom", s)

/-- C10 counterexample: when reconciliation raises, the `except` branch of
`process_webhook` (webhook_tasks.py lines 54-56) calls
`mark_as_processed(error=str(e))`, which sets `processed = True`
(webhook_log.py line 72).  The raw entry survives, but it is NOT left in the
unprocessed state the claim requires: a sweep over `processed = False` rows
would never retry it. -/
theorem claim_C10_counterexample :
    (processWebhookWith c10Failing c10State 1).logs =
      [⟨1, "messages.update", emptyPayload, true, some 0, "boom"⟩] ∧
    (lookupLog 1 (processWebhookWith c10Failing c10State 1).logs).map
      WebhookLog.processed = some true :=
  ⟨rfl, rfl⟩

/-- C10 amended: if reconciliation of a `WebhookLogEntry` raises, the raw
log entry survives — the row count is unchanged and the entry is still
retrievable by id — and the `(processed, created_at)` index exists to
support a sweep; but the entry is marked `processed = true` with the error
text recorded, not left unprocessed.  (`hlogs` reflects that no handler of
the source ever touches the webhook-log table itself.) -/
theorem claim_C10_amended
    (handle : WebhookLog → SysState → Option String × SysState)
    (s : SysState) (logId : Nat) (log : WebhookLog) (e : String)
    (s1 : SysState)
    (hfind : lookupLog logId s.logs = some log)
    (hfail : handle log s = (some e, s1))
    (hlogs : s1.logs = s.logs) :
    (processWebhookWith handle s logId).logs.length = s.logs.length ∧
    lookupLog logId (processWebhookWith handle s logId).logs =
      some { log with processed := true, processedAt := some s1.clock,
                      errorText := e } ∧
    ["processed", "created_at"] ∈ webhookLogIndexes := by
  have hres : processWebhookWith handle s logId =
      mark_as_processed logId e s1 := by
    unfold processWebhookWith
    rw [hfind]
    dsimp only
    rw [hfail]
  rw [hres]
  unfold mark_as_processed
  refine ⟨?_, ?_, by simp [webhookLogIndexes]⟩
  · show (updateFirst _ _ s1.logs).length = s.logs.length
    rw [updateFirst_length, hlogs]
  · show lookupLog logId (updateFirst _ _ s1.logs) = _
    rw [lookupLog_updateFirst logId
      (fun l => { l with processed := true, processedAt := some s1.clock,
                         errorText := e }) (fun l => rfl) s1.logs,
      hlogs, hfind]
    rfl

theorem claim_C10_witness :
    (processWebhookWith c10Failing c10State 1).logs.length =
      c10State.logs.length ∧
    lookupLog 1 (processWebhookWith c10Failing c10State 1).logs =
      some { c10Log with processed := true, processedAt := some 0,
                         errorText := "boom" } ∧
    ["processed", "created_at"] ∈ webhookLogIndexes :=
  claim_C10_amended c10Failing c10State 1 c10Log "boom" c10State rfl rfl rfl

/-- A one-supporter tenant for the C2 run. -/
def c2Tenant : TenantData :=
  { tags := [⟨1, "vip", false⟩],
    supporters := [⟨1, "Ana", "11999998888", true, [1]⟩], users := [] }

/-- A send-failure (`messages.update`, status `FAILED`) payload for the
message the scheduler already counted as sent. -/
def c2FailPayload : Payload :=
  { emptyPayload with dataKeyId := "WAMID2", dataStatus := "FAILED" }

/-- Start the one-recipient campaign, send its item successfully, then
ingest and reconcile a send-failure callback for the same message. -/
def c2Trace : List Ev :=
  [Ev.evStart c2Tenant,
   Ev.evBatch (fun _ => SendOutcome.sendOk (some "WAMID2")) none,
   Ev.evReceive "messages.update" c2FailPayload,
   Ev.evRun 0]

def c2Final : SysState := runTrace (draftCampaign "oi" [1] []) someSession c2Trace

/-- C2 counterexample: a reachable state (start → successful send →
send-failure webhook for the same message) in which
`messages_sent + messages_failed = 2 > 1 = total_recipients`, and the state
is even COMPLETED with `sent + failed ≠ total_recipients`: the FAILED branch
of `_handle_messages_update` (lines 178-187) increments `messages_failed`
for an item that the scheduler already counted in `messages_sent`. -/
theorem claim_C2_counterexample :
    c2Final.campaign.status = CampaignStatus.completed ∧
    c2Final.campaign.totalRecipients = 1 ∧
    c2Final.campaign.messagesSent = 1 ∧
    c2Final.campaign.messagesFailed = 1 ∧
    ¬ (c2Final.campaign.messagesSent + c2Final.campaign.messagesFailed ≤
        c2Final.campaign.totalRecipients) :=
  ⟨by decide, by decide, by decide, by decide, by decide⟩

/-- C2 amended: over every trace of the dispatch/reconciliation system that
ingests no send-failure (`FAILED`) message-update events,
`messages_sent + messages_failed ≤ total_recipients` holds at every
reachable state; and if additionally no pause interferes (neither between
batches nor mid-batch), `messages_sent + messages_failed =
total_recipients` whenever the campaign status is COMPLETED. -/
theorem claim_C2_amended (msg : String) (tags : List Nat)
    (groups : List String) (sess : SessionRec) (tr : List Ev)
    (hb : ∀ e ∈ tr, benignEv e) :
    (runTrace (draftCampaign msg tags groups) sess tr).campaign.messagesSent +
      (runTrace (draftCampaign msg tags groups) sess
        tr).campaign.messagesFailed ≤
      (runTrace (draftCampaign msg tags groups) sess
        tr).campaign.totalRecipients ∧
    ((∀ e ∈ tr, noPauseEv e) →
      (runTrace (draftCampaign msg tags groups) sess tr).campaign.status =
        CampaignStatus.completed →
      (runTrace (draftCampaign msg tags groups) sess
        tr).campaign.messagesSent +
        (runTrace (draftCampaign msg tags groups) sess
          tr).campaign.messagesFailed =
        (runTrace (draftCampaign msg tags groups) sess
          tr).campaign.totalRecipients) := by
  constructor
  · obtain ⟨⟨hTot, hSent, hFail⟩, _, _, _⟩ :=
      runTrace_invA msg tags groups sess tr hb
    have hpart := length_eq_count_partition
      (runTrace (draftCampaign msg tags groups) sess tr).items
    omega
  · intro hnp hc
    obtain ⟨⟨⟨hTot, hSent, hFail⟩, _, _, _⟩, hq0, hcp⟩ :=
      runTrace_invB msg tags groups sess tr hb hnp
    have hpart := length_eq_count_partition
      (runTrace (draftCampaign msg tags groups) sess tr).items
    have hp0 := hcp hc
    omega

def c2WitTrace : List Ev :=
  [Ev.evStart c2Tenant,
   Ev.evBatch (fun _ => SendOutcome.sendOk (some "WAMID2")) none]

theorem claim_C2_witness :
    (runTrace (draftCampaign "oi" [1] []) someSession
        c2WitTrace).campaign.messagesSent +
      (runTrace (draftCampaign "oi" [1] []) someSession
        c2WitTrace).campaign.messagesFailed ≤
      (runTrace (draftCampaign "oi" [1] []) someSession
        c2WitTrace).campaign.totalRecipients ∧
    ((∀ e ∈ c2WitTrace, noPauseEv e) →
      (runTrace (draftCampaign "oi" [1] []) someSession
        c2WitTrace).campaign.status = CampaignStatus.completed →
      (runTrace (draftCampaign "oi" [1] []) someSession
        c2WitTrace).campaign.messagesSent +
        (runTrace (draftCampaign "oi" [1] []) someSession
          c2WitTrace).campaign.messagesFailed =
        (runTrace (draftCampaign "oi" [1] []) someSession
          c2WitTrace).campaign.totalRecipients) :=
  claim_C2_amended "oi" [1] [] someSession c2WitTrace
    (by intro e he; fin_cases he <;> trivial)

/-- A one-supporter tenant for the C5 run. -/
def c5Tenant : TenantData :=
  { tags := [⟨1, "vip", false⟩],
    supporters := [⟨1, "Bia", "11988887777", true, [1]⟩], users := [] }

/-- A delivery-ack payload for the message sent by the C5 run. -/
def c5AckPayload : Payload :=
  { emptyPayload with dataKeyId := "WAMID5", dataStatus := "DELIVERY_ACK" }

/-- Start, send, then ingest and reconcile one delivery ack. -/
def c5TraceOnce : List Ev :=
  [Ev.evStart c5Tenant,
   Ev.evBatch (fun _ => SendOutcome.sendOk (some "WAMID5")) none,
   Ev.evReceive "messages.update" c5AckPayload,
   Ev.evRun 0]

/-- The same run, with the gateway delivering the same delivery ack twice
(a second log entry with the identical payload, reconciled as well). -/
def c5TraceTwice : List Ev :=
  c5TraceOnce ++ [Ev.evReceive "messages.update" c5AckPayload, Ev.evRun 1]

def c5Once : SysState :=
  runTrace (draftCampaign "oi" [1] []) someSession c5TraceOnce

def c5Twice : SysState :=
  runTrace (draftCampaign "oi" [1] []) someSession c5TraceTwice

/-- C5 counterexample: two reachable states with IDENTICAL CampaignItem rows
but different `messages_delivered` counters (1 after one delivery ack, 2
after the duplicated ack — the DELIVERY_ACK branch at lines 154-162
increments the counter unconditionally).  No re-aggregation of the item rows
can yield both 1 and 2, so the counters are not derivable from the items. -/
theorem claim_C5_counterexample :
    c5Twice.items = c5Once.items ∧
    c5Once.campaign.messagesDelivered = 1 ∧
    c5Twice.campaign.messagesDelivered = 2 :=
  ⟨by decide, by decide, by decide⟩

/-- C5 amended: for scheduler-only traces (start / pause / batch activations,
no webhook reconciliation), every reachable state's denormalized counters are
exactly the re-aggregation of its own CampaignItem rows:
`total_recipients` is the row count and each message counter counts the rows
in the corresponding status.  Webhook reconciliation breaks this (see the
counterexample), which is what the shipped recalculation command
(`recalcular_metricas_campanhas`) exists to repair. -/
theorem claim_C5_amended (msg : String) (tags : List Nat)
    (groups : List String) (sess : SessionRec) (tr : List Ev)
    (hs : ∀ e ∈ tr, schedOnlyEv e) :
    (runTrace (draftCampaign msg tags groups) sess
        tr).campaign.totalRecipients =
      (runTrace (draftCampaign msg tags groups) sess tr).items.length ∧
    (runTrace (draftCampaign msg tags groups) sess
        tr).campaign.messagesSent =
      countP isSentOnly
        (runTrace (draftCampaign msg tags groups) sess tr).items ∧
    (runTrace (draftCampaign msg tags groups) sess
        tr).campaign.messagesFailed =
      countP isFailed
        (runTrace (draftCampaign msg tags groups) sess tr).items ∧
    (runTrace (draftCampaign msg tags groups) sess
        tr).campaign.messagesDelivered =
      countP isDelivered
        (runTrace (draftCampaign msg tags groups) sess tr).items ∧
    (runTrace (draftCampaign msg tags groups) sess
        tr).campaign.messagesRead =
      countP isRead
        (runTrace (draftCampaign msg tags groups) sess tr).items := by
  obtain ⟨⟨⟨hTot, hSent, hFail⟩, _, _, _⟩, hd, hr, hcd, hcr⟩ :=
    runTrace_invC msg tags groups sess tr hs
  have hsplit := countSentLike_split
    (runTrace (draftCampaign msg tags groups) sess tr).items
  exact ⟨hTot, by omega, hFail, by omega, by omega⟩

def c5WitTrace : List Ev :=
  [Ev.evStart c5Tenant,
   Ev.evBatch (fun j => if j = 0 then SendOutcome.sendErr "timeout"
     else SendOutcome.sendOk none) none]

theorem claim_C5_witness :
    (runTrace (draftCampaign "oi" [1] []) someSession
        c5WitTrace).campaign.totalRecipients =
      (runTrace (draftCampaign "oi" [1] []) someSession
        c5WitTrace).items.length ∧
    (runTrace (draftCampaign "oi" [1] []) someSession
        c5WitTrace).campaign.messagesSent =
      countP isSentOnly
        (runTrace (draftCampaign "oi" [1] []) someSession c5WitTrace).items ∧
    (runTrace (draftCampaign "oi" [1] []) someSession
        c5WitTrace).campaign.messagesFailed =
      countP isFailed
        (runTrace (draftCampaign "oi" [1] []) someSession c5WitTrace).items ∧
    (runTrace (draftCampaign "oi" [1] []) someSession
        c5WitTrace).campaign.messagesDelivered =
      countP isDelivered
        (runTrace (draftCampaign "oi" [1] []) someSession c5WitTrace).items ∧
    (runTrace (draftCampaign "oi" [1] []) someSession
        c5WitTrace).campaign.messagesRead =
      countP isRead
        (runTrace (draftCampaign "oi" [1] []) someSession c5WitTrace).items :=
  claim_C5_amended "oi" [1] [] someSession c5WitTrace
    (by intro e he; fin_cases he <;> trivial)

/-- Eleven opted-in supporters with distinct phones, all carrying tag 1. -/
def c3Tenant : TenantData :=
  { tags := [⟨1, "vip", false⟩],
    supporters :=
      [⟨1, "S1", "11999990001", true, [1]⟩,
       ⟨2, "S2", "11999990002", true, [1]⟩,
       ⟨3, "S3", "11999990003", true, [1]⟩,
       ⟨4, "S4", "11999990004", true, [1]⟩,
       ⟨5, "S5", "11999990005", true, [1]⟩,
       ⟨6, "S6", "11999990006", true, [1]⟩,
       ⟨7, "S7", "11999990007", true, [1]⟩,
       ⟨8, "S8", "11999990008", true, [1]⟩,
       ⟨9, "S9", "11999990009", true, [1]⟩,
       ⟨10, "S10", "11999990010", true, [1]⟩,
       ⟨11, "S11", "11999990011", true, [1]⟩],
    users := [] }

/-- Start the 11-recipient campaign; the first batch claims rows 0-9 and a
pause lands after one send, orphaning rows 1-9 in QUEUED; then start again
and run the next batch, which claims only the one remaining PENDING row and
completes the campaign. -/
def c3Trace : List Ev :=
  [Ev.evStart c3Tenant,
   Ev.evBatch (fun j => SendOutcome.sendOk (some ("M" ++ toString j)))
     (some 1),
   Ev.evStart c3Tenant,
   Ev.evBatch (fun j => SendOutcome.sendOk (some ("N" ++ toString j))) none]

def c3Final : SysState :=
  runTrace (draftCampaign "oi" [1] []) someSession c3Trace

/-- C3 counterexample: after a mid-batch pause the 9 claimed-but-unsent
rows stay QUEUED, and since the claim query selects only PENDING rows
(tasks.py lines 40-44) the restarted scheduler never re-claims them; the
end-of-batch check (lines 177-192) then marks the campaign COMPLETED while
9 unsent claimed items still exist — they are lost.  Concretely: 11
recipients, pause after send 1 of batch 1, restart, one more batch:
status is COMPLETED, `messages_sent = 2`, and 9 rows remain QUEUED with no
gateway message id. -/
theorem claim_C3_counterexample :
    c3Final.campaign.status = CampaignStatus.completed ∧
    c3Final.campaign.messagesSent = 2 ∧
    countP isQueued c3Final.items = 9 ∧
    (c3Final.items[1]?.map CampaignItem.status) = some ItemStatus.queued ∧
    (c3Final.items[1]?.map CampaignItem.messageId) = some none :=
  ⟨by decide, by decide, by decide, by decide, by decide⟩

/-- C3 amended: if a pause lands after `k` sends of a claimed batch, the
scheduler halts before sending the remaining claimed items; each claimed row
from position `k` on is left exactly as the claim transaction wrote it —
status QUEUED, send fields untouched — and any activation on a non-RUNNING
campaign exits without touching anything.  However the rows are not
re-claimable (the claim selects PENDING only) and the completion check can
still fire past them when no PENDING rows remain, as the counterexample
shows. -/
theorem claim_C3_amended (oc : Nat → SendOutcome) (k : Nat) (s : SysState)
    (hrun : s.campaign.status = CampaignStatus.running) :
    (∀ i ∈ (pendingIdxs s.items 10).drop k,
      (process_campaign_batch oc (some k) s).items[i]? =
        s.items[i]?.map (fun it => { it with status := ItemStatus.queued })) ∧
    (∀ (oc2 : Nat → SendOutcome) (pa : Option Nat) (s2 : SysState),
      s2.campaign.status ≠ CampaignStatus.running →
      process_campaign_batch oc2 pa s2 = s2) := by
  constructor
  · intro i hi
    have himem : i ∈ pendingIdxs s.items 10 := List.drop_subset _ _ hi
    have hnd := pendingIdxs_nodup s.items 10
    have hne : ¬ (pendingIdxs s.items 10 = []) := by
      intro h0
      rw [h0] at himem
      simp at himem
    have hres : process_campaign_batch oc (some k) s =
        batchTail (batchLoop oc (some k) (pendingIdxs s.items 10) 0
          { s with items := setQueued (pendingIdxs s.items 10) s.items }) := by
      unfold process_campaign_batch
      rw [if_pos hrun, if_neg hne]
    rw [hres, batchTail_items]
    have huntouched := batchLoop_pause_untouched oc k
      (pendingIdxs s.items 10) 0
      { s with items := setQueued (pendingIdxs s.items 10) s.items }
      (Nat.zero_le k) hnd i (by simpa using hi)
    rw [huntouched]
    show (setQueued (pendingIdxs s.items 10) s.items)[i]? = _
    exact setQueued_get?_mem _ _ i hnd himem
  · intro oc2 pa s2 hnr
    unfold process_campaign_batch
    rw [if_neg hnr]

/-- One pending row, used to exercise the amended C3 statement at `k = 0`:
the whole claimed batch stays QUEUED. -/
def c3WitState : SysState :=
  { campaign := { draftCampaign "oi" [1] [] with
      status := CampaignStatus.running, totalRecipients := 1,
      startedAt := some 0 },
    items := [⟨some 1, "S1", "11999990001", ItemStatus.pending, none, "",
      none, none, none⟩],
    logs := [], msgs := [], session := someSession, clock := 0 }

theorem claim_C3_witness :
    ((∀ i ∈ (pendingIdxs c3WitState.items 10).drop 0,
      (process_campaign_batch (fun _ => SendOutcome.sendOk none) (some 0)
          c3WitState).items[i]? =
        c3WitState.items[i]?.map
          (fun it => { it with status := ItemStatus.queued })) ∧
    (∀ (oc2 : Nat → SendOutcome) (pa : Option Nat) (s2 : SysState),
      s2.campaign.status ≠ CampaignStatus.running →
      process_campaign_batch oc2 pa s2 = s2)) ∧
    (process_campaign_batch (fun _ => SendOutcome.sendOk none) (some 0)
        c3WitState).items[0]? =
      some ⟨some 1, "S1", "11999990001", ItemStatus.queued, none, "", none,
        none, none⟩ :=
  ⟨claim_C3_amended (fun _ => SendOutcome.sendOk none) 0 c3WitState rfl,
    by decide⟩

/-- C4 counterexample: the delivered-counter write of the reconciliation
engine (`campaign.messages_delivered += 1; campaign.save(...)`,
webhook_tasks.py lines 161-162) stores the in-memory snapshot plus one.
With stored value 1 and a stale snapshot 0 it stores 1, not the
`stored + 1 = 2` an atomic relative increment must produce — so not every
counter mutation is an atomic relative increment. -/
theorem claim_C4_counterexample : webhookDeliveredWrite 1 0 ≠ 1 + 1 := by
  decide

/-- C4 amended: the dispatch scheduler's counter mutations
(`F('messages_sent') + 1`, `F('messages_failed') + 1`) are atomic relative
increments — new stored value = stored value at write time + 1, whatever the
in-memory snapshot holds; but the status-reconciliation engine's mutations
(`messages_delivered`, `messages_read`, `messages_failed` on webhook events)
write back snapshot + 1 and differ from the atomic result whenever the
snapshot is stale. -/
theorem claim_C4_amended (stored snapshot : Nat) :
    schedulerSentWrite stored snapshot = stored + 1 ∧
    schedulerFailedWrite stored snapshot = stored + 1 ∧
    webhookDeliveredWrite stored snapshot = snapshot + 1 ∧
    webhookReadWrite stored snapshot = snapshot + 1 ∧
    webhookFailedWrite stored snapshot = snapshot + 1 ∧
    (snapshot ≠ stored →
      webhookDeliveredWrite stored snapshot ≠ stored + 1) := by
  refine ⟨rfl, rfl, rfl, rfl, rfl, ?_⟩
  intro h
  unfold webhookDeliveredWrite
  omega

theorem claim_C4_witness :
    schedulerSentWrite 5 3 = 6 ∧
    schedulerFailedWrite 5 3 = 6 ∧
    webhookDeliveredWrite 5 3 = 4 ∧
    webhookReadWrite 5 3 = 4 ∧
    webhookFailedWrite 5 3 = 4 ∧
    (3 ≠ 5 → webhookDeliveredWrite 5 3 ≠ 6) :=
  claim_C4_amended 5 3
